import Mathlib

/-!
Verification development for the `zone_rosse_it` location-resolution pipeline.

The Python sources (`city_configs.py`, `coordinates_fetcher.py`,
`embed_coordinates.py`) are shallowly embedded here:

* strings are `String` (operated on through their underlying `List Char`),
  floats are exact rationals `ℚ`,
* the small number of anchored regular expressions used by the parsers are
  embedded as specialised scanners that reproduce the leftmost / lazy-group
  semantics of Python `re.search` for those patterns (greedy `\s+` is taken
  maximal-munch; every token that follows such a run in these patterns starts
  with a non-whitespace character, so no observable backtracking is lost,
  except for the end-of-string case which is handled explicitly),
* the HTTP backends (Nominatim / Overpass) are the boundary: their *parsed
  responses* are explicit inputs, and the `requests` exception behaviour is
  modelled by explicit failure constructors,
* Python `dict`s are association lists in insertion order; Python `set`s used
  by `extract_elements` are duplicate-free lists in first-insertion order.
-/

/-! ## Python-style character and string primitives -/

/-- Python `\s` / `str.strip` whitespace class (ASCII range, which covers all
strings appearing in this code base). -/
def isPyWs (c : Char) : Bool :=
  c == ' ' || c == '\t' || c == '\n' || c == '\r' || c == '\x0b' || c == '\x0c'

/-- The character class of `.` in a Python regular expression without
`re.DOTALL`: every character except a newline. -/
def isDotChar (c : Char) : Bool := c != '\n'

/-- Python `str.strip()` on a character list. -/
def stripL (s : List Char) : List Char :=
  ((s.dropWhile isPyWs).reverse.dropWhile isPyWs).reverse

/-- Python `str.lower()`. `Char.toLower` only maps ASCII letters, which agrees
with Python on every string occurring in the configurations and inputs used
here (accented letters in them are already lower case). -/
def lowerL (s : List Char) : List Char := s.map Char.toLower

/-- Python substring test `pat in s`. -/
def containsL (s pat : List Char) : Bool :=
  if pat.isPrefixOf s then true
  else
    match s with
    | [] => false
    | _ :: t => containsL t pat

/-- Consume `pat` from the front of the second list, returning the remainder
if `pat` is a prefix. Structural, so it reduces in the kernel. -/
def dropPfxL : List Char → List Char → Option (List Char)
  | [], s => some s
  | _ :: _, [] => none
  | p :: ps, c :: cs => if p == c then dropPfxL ps cs else none

/-- Worker for `replaceL`; `fuel` dominates the input length, so the
fuel-exhausted branch is unreachable for the initial fuel chosen below. -/
def replaceGo (pat rep : List Char) : Nat → List Char → List Char
  | _, [] => []
  | 0, s => s
  | fuel + 1, c :: cs =>
    match dropPfxL pat (c :: cs) with
    | some rest => rep ++ replaceGo pat rep fuel rest
    | none => c :: replaceGo pat rep fuel cs

/-- Python `str.replace(pat, rep)` (all non-overlapping occurrences, left to
right). The `pat = ""` case never arises in the embedded code. -/
def replaceL (pat rep s : List Char) : List Char :=
  match pat with
  | [] => s
  | _ :: _ => replaceGo pat rep (s.length + 1) s

/-- Worker for `pyWordsL`: `cur` is the reversed word currently being read. -/
def pyWordsGo (cur : List Char) : List Char → List (List Char)
  | [] => if cur.isEmpty then [] else [cur.reverse]
  | c :: cs =>
    if isPyWs c then
      if cur.isEmpty then pyWordsGo [] cs else cur.reverse :: pyWordsGo [] cs
    else
      pyWordsGo (c :: cur) cs

/-- Python no-argument `str.split()`: split on whitespace runs, dropping empty
pieces. -/
def pyWordsL (s : List Char) : List (List Char) := pyWordsGo [] s

/-- Worker for `pySplitL`: `acc` is the reversed current piece; the fuel
dominates the input length, so its exhausted branch is unreachable. -/
def pySplitGo (sep : List Char) : Nat → List Char → List Char → List (List Char)
  | _, acc, [] => [acc.reverse]
  | 0, acc, s => [acc.reverse ++ s]
  | fuel + 1, acc, c :: cs =>
    match dropPfxL sep (c :: cs) with
    | some rest => acc.reverse :: pySplitGo sep fuel [] rest
    | none => pySplitGo sep fuel (c :: acc) cs

/-- Python `str.split(sep)` for a nonempty literal separator (`sep = ""`
raises in Python and never arises in the embedded code). -/
def pySplitL (sep s : List Char) : List (List Char) :=
  match sep with
  | [] => [s]
  | _ :: _ => pySplitGo sep (s.length + 1) [] s

example : pySplitL " e ".data "Via B e Via C e Via D".data =
    ["Via B".data, "Via C".data, "Via D".data] := by decide

example : stripL "  ab c  ".data = "ab c".data := by decide
example : lowerL "Via ROMA".data = "via roma".data := by decide
example : containsL "via roma".data "a ro".data = true := by decide
example : containsL "via roma".data "x".data = false := by decide
example : replaceL ".".data "".data "ff.ss. x.".data = "ffss x".data := by decide
example : pyWordsL "  via  del corso ".data = ["via".data, "del".data, "corso".data] := by decide

/-! ## Specialised scanners for the anchored regular expressions

Each Python pattern used by the parsers has the shape
`^(.+?)␣TOKENS␣(...)$`.  `lazyScan test` reproduces the leftmost lazy group
`(.+?)`: it tries every nonempty prefix in increasing length order, handing
the remaining characters to `test`, which consumes the fixed tokens of the
pattern.  A `.` never matches a newline, so the scan stops at one.
Python's `$` is modelled as strict end of string (its match before a single
trailing newline is outside the single-line inputs of this pipeline). -/

/-- Leftmost-lazy scan for patterns starting with `(.+?)`; `acc` holds the
reversed group matched so far. -/
def lazyScan (test : List Char → Option β) : List Char → List Char → Option (List Char × β)
  | _, [] => none
  | acc, c :: cs =>
    if isDotChar c then
      match test cs with
      | some b => some ((c :: acc).reverse, b)
      | none => lazyScan test (c :: acc) cs
    else none

/-- Length of the leading whitespace run (the maximal munch of `\s+`/`\s*`). -/
def wsCountL (s : List Char) : Nat := (s.takeWhile isPyWs).length

/-- Consume a literal case-insensitively (for patterns under `re.IGNORECASE`). -/
def stripLitCI : List Char → List Char → Option (List Char)
  | [], s => some s
  | _ :: _, [] => none
  | p :: ps, c :: cs => if p.toLower == c.toLower then stripLitCI ps cs else none

/-- Model of a trailing `\s+(.+?)$`: maximal whitespace run, then the
remainder is the final lazy group.  When the remainder would be empty the
greedy `\s+` backtracks one character (Python leaves a single whitespace
character to the group). -/
def wsPlusRest (u : List Char) : Option (List Char) :=
  let m := wsCountL u
  if m == 0 then none
  else if m < u.length then
    let g := u.drop m
    if g.all isDotChar then some g else none
  else if 2 ≤ m then
    match u.getLast? with
    | some c => if isDotChar c then some [c] else none
    | none => none
  else none

/-- Model of `\s+e\s+(.+?)$` under `re.IGNORECASE` (the endpoint separator of
the tract pattern in `extract_elements`). -/
def wsEwsTail (u : List Char) : Option (List Char) :=
  let k := wsCountL u
  if k == 0 then none
  else
    match u.drop k with
    | [] => none
    | c :: rest => if c.toLower == 'e' then wsPlusRest rest else none

/-- Model of `\s+LIT\s+(.+?)$` under `re.IGNORECASE`. -/
def litWsTailCI (lit : List Char) (u : List Char) : Option (List Char) :=
  let k := wsCountL u
  if k == 0 then none
  else
    match stripLitCI lit (u.drop k) with
    | none => none
    | some v => wsPlusRest v

/-- Match of `^(.+?)\s+LIT\s+(.+?)$` under `re.IGNORECASE`. -/
def twoGroupCI (lit : List Char) (s : List Char) : Option (List Char × List Char) :=
  lazyScan (litWsTailCI lit) [] s

/-- Tail of the `extract_elements` tract pattern
`^(.+?)\s+tratto compreso tra\s+(.+?)\s+e\s+(.+?)$` (with `re.IGNORECASE`)
after the first lazy group. -/
def tractTailCI (u : List Char) : Option (List Char × List Char) :=
  let k := wsCountL u
  if k == 0 then none
  else
    match stripLitCI "tratto compreso tra".data (u.drop k) with
    | none => none
    | some v =>
      let m := wsCountL v
      if m == 0 then none
      else lazyScan wsEwsTail [] (v.drop m)

/-- Full match of the `extract_elements` tract pattern: groups
(primary, endpoint clause 1, endpoint clause 2). -/
def tractMatchCI (s : List Char) : Option (List Char × List Char × List Char) :=
  match lazyScan tractTailCI [] s with
  | some (g1, g2, g3) => some (g1, g2, g3)
  | none => none

/-- Match of `^incrocio tra\s+(.+?)\s+e\s+(.+?)$` under `re.IGNORECASE`
(anchored literal, no leading lazy group). -/
def incrocioTraMatch (s : List Char) : Option (List Char × List Char) :=
  match stripLitCI "incrocio tra".data s with
  | none => none
  | some v =>
    let m := wsCountL v
    if m == 0 then none
    else lazyScan wsEwsTail [] (v.drop m)

/-- Tail of a case-sensitive `\s+LIT(.+?)$` where `LIT` ends in a literal
space (the `parse_specification` patterns): whitespace run, exact literal,
then the nonempty remainder is the second group. -/
def litThenRest (lit : List Char) (u : List Char) : Option (List Char) :=
  let k := wsCountL u
  if k == 0 then none
  else
    match dropPfxL lit (u.drop k) with
    | none => none
    | some v => if v.isEmpty then none else if v.all isDotChar then some v else none

/-- Tail of `^(.+?)\s*\(fronte civico (\d+)\)$` (case-sensitive): optional
whitespace, literal, a nonempty digit group, closing parenthesis at end of
string.  Returns the digit group. -/
def civicParenTail (u : List Char) : Option (List Char) :=
  let k := wsCountL u
  match dropPfxL "(fronte civico ".data (u.drop k) with
  | none => none
  | some v =>
    let d := (v.takeWhile Char.isDigit).length
    if d == 0 then none
    else
      match v.drop d with
      | [')'] => some (v.take d)
      | _ => none

/-- Match of `^(.+?)\s*\(fronte civico (\d+)\)$`: (street clause, digits). -/
def civicParenMatch (s : List Char) : Option (List Char × List Char) :=
  lazyScan civicParenTail [] s

/-- Tail of `^(.+?)\s+civico\s+(\d+)$` (case-sensitive): whitespace run,
literal `civico`, whitespace run, digits up to the end of string. -/
def civicDirectTail (u : List Char) : Option (List Char) :=
  let k := wsCountL u
  if k == 0 then none
  else
    match dropPfxL "civico".data (u.drop k) with
    | none => none
    | some v =>
      let m := wsCountL v
      if m == 0 then none
      else
        let w := v.drop m
        if w.isEmpty then none else if w.all Char.isDigit then some w else none

/-- Match of `^(.+?)\s+civico\s+(\d+)$`: (street clause, digits). -/
def civicDirectMatch (s : List Char) : Option (List Char × List Char) :=
  lazyScan civicDirectTail [] s

example : tractMatchCI "Via T tratto compreso tra Via A e Via C".data =
    some ("Via T".data, "Via A".data, "Via C".data) := by decide
example : tractMatchCI "A tratto compreso tra Via E e Via Y".data =
    some ("A".data, "Via".data, "e Via Y".data) := by decide
example : civicParenMatch "Via Giovanni Giolitti (fronte civico 45)".data =
    some ("Via Giovanni Giolitti".data, "45".data) := by decide
example : civicDirectMatch "Via Tuscolana civico 233".data =
    some ("Via Tuscolana".data, "233".data) := by decide
example : civicDirectMatch "Via Roma".data = none := by decide

/-! ## The specification parsers

`extract_elements` (coordinates_fetcher.py) returns a Python `set`, modelled
as a duplicate-free list in first-insertion order; `parse_specification`
(embed_coordinates.py) returns a dict, modelled as `ParsedSpec`. -/

/-- Python `set.add` on the insertion-ordered duplicate-free list model. -/
def setAddL (l : List (List Char)) (x : List Char) : List (List Char) :=
  if x ∈ l then l else l ++ [x]

/-- Sequence of `set.add` calls. -/
def setAddAllL (l : List (List Char)) (xs : List (List Char)) : List (List Char) :=
  xs.foldl setAddL l

/-- Elements contributed by one (already stripped) tract endpoint in
`extract_elements`: a parenthesised civic clause yields the bare street and a
synthesised `<street> civico <n>`, a direct civic address yields the bare
street and the full endpoint, anything else yields the endpoint itself. -/
def civicEndpointElems (ep : List Char) : List (List Char) :=
  match civicParenMatch ep with
  | some (g1, num) =>
    let street := stripL g1
    [street, street ++ " civico ".data ++ num]
  | none =>
    match civicDirectMatch ep with
    | some (g1, _) => [stripL g1, ep]
    | none => [ep]

/-- Elements contributed by one (already stripped) intersection place in
`extract_elements`: only the parenthesised civic form is decomposed there. -/
def civicPlaceElems (p : List Char) : List (List Char) :=
  match civicParenMatch p with
  | some (g1, num) =>
    let street := stripL g1
    [street, street ++ " civico ".data ++ num]
  | none => [p]

/-- The six intersection patterns of `extract_elements`, tried in order
(all under `re.IGNORECASE`); result is (place1, place2). -/
def intersectionMatch (s : List Char) : Option (List Char × List Char) :=
  match twoGroupCI "incrocio con".data s with
  | some r => some r
  | none =>
  match incrocioTraMatch s with
  | some r => some r
  | none =>
  match twoGroupCI "sino all\x27incrocio con".data s with
  | some r => some r
  | none =>
  match twoGroupCI "all\x27incrocio con".data s with
  | some r => some r
  | none =>
  match twoGroupCI "angolo".data s with
  | some r => some r
  | none => twoGroupCI "incrocio".data s

/-- Embedding of `CoordinatesFetcher.extract_elements`: extracts the set of
atomic elements of a specification, trying the tract pattern, the six
intersection patterns, the two civic patterns, and finally the whole
(stripped) string. -/
def extract_elements (specification : List Char) : List (List Char) :=
  match tractMatchCI specification with
  | some (g1, g2, g3) =>
    setAddAllL []
      ([stripL g1] ++ civicEndpointElems (stripL g2) ++ civicEndpointElems (stripL g3))
  | none =>
  match intersectionMatch specification with
  | some (p1, p2) =>
    setAddAllL [] (civicPlaceElems (stripL p1) ++ civicPlaceElems (stripL p2))
  | none =>
  match civicParenMatch specification with
  | some (g1, num) =>
    let street := stripL g1
    setAddAllL [] [street, street ++ " civico ".data ++ num]
  | none =>
  match civicDirectMatch specification with
  | some (g1, _) =>
    setAddAllL [] [stripL g1, stripL specification]
  | none => [stripL specification]

/-- Structured result of `PlacesEmbedder.parse_specification`. -/
structure ParsedSpec where
  ptype : List Char
  primary : List Char
  civic_number : Option (List Char) := none
  endpoints : List (List Char) := []
  intersecting : Option (List Char) := none
  places : List (List Char)
deriving Repr, DecidableEq

/-- Embedding of `PlacesEmbedder.parse_specification` (embed_coordinates.py):
civic pattern, then tract (whose tail is split at *every* occurrence of the
literal `" e "`), then intersection, then the simple fallback.  All three
regular expressions there are case-sensitive. -/
def parse_specification (specification : List Char) : ParsedSpec :=
  let spec := stripL specification
  match civicParenMatch spec with
  | some (g1, num) =>
    let p := stripL g1
    ⟨"civico".data, p, some num, [], none, [p, p ++ " civico ".data ++ num]⟩
  | none =>
  match lazyScan (litThenRest "tratto compreso tra ".data) [] spec with
  | some (g1, tail) =>
    let primary := stripL g1
    let endpoints := (pySplitL " e ".data tail).map stripL
    ⟨"tratto".data, primary, none, endpoints, none, primary :: endpoints⟩
  | none =>
  match lazyScan (litThenRest "incrocio con ".data) [] spec with
  | some (g1, g2) =>
    let primary := stripL g1
    let inter := stripL g2
    ⟨"incrocio".data, primary, none, [], some inter, [primary, inter]⟩
  | none => ⟨"simple".data, spec, none, [], none, [spec]⟩

example : extract_elements "Via Tuscolana tratto compreso tra Via Appia Nuova e Via Cinecittà".data =
    ["Via Tuscolana".data, "Via Appia Nuova".data, "Via Cinecittà".data] := by decide
example : extract_elements "Via Alfa tratto compreso tra Via Beta e Via Gamma e Via Delta".data =
    ["Via Alfa".data, "Via Beta".data, "Via Gamma e Via Delta".data] := by decide
example : (parse_specification "Via Alfa tratto compreso tra Via Beta e Via Gamma e Via Delta".data).places =
    ["Via Alfa".data, "Via Beta".data, "Via Gamma".data, "Via Delta".data] := by decide
example : parse_specification "Via Giovanni Giolitti (fronte civico 45)".data =
    ⟨"civico".data, "Via Giovanni Giolitti".data, some "45".data, [], none,
      ["Via Giovanni Giolitti".data, "Via Giovanni Giolitti civico 45".data]⟩ := by decide
example : extract_elements "Via A incrocio con Via B".data =
    ["Via A".data, "Via B".data] := by decide
example : extract_elements "Largo X".data = ["Largo X".data] := by decide

/-! ## Geometry values and the bounding-box filters

Geometries in the JSON data are dicts with a `type` tag and a `coordinates`
payload whose nesting depth depends on the tag; they are modelled as a tagged
union (floats as exact `ℚ`).  A coordinate is a list (source code checks
`len(coord) >= 2` and reads positions 0 and 1, ignoring any extra entries).
The presentation-only keys the filters copy along (`bbox_filtered`,
`osm_id`, `is_tract_segment`) carry no information used anywhere and are not
modelled.  `other` covers geometries with any further `type` tag; only
whether their `coordinates` payload is falsy is observable in this code. -/

/-- Bounding box in degrees, `(south, west, north, east)`. -/
structure BBox where
  south : ℚ
  west : ℚ
  north : ℚ
  east : ℚ
deriving Repr, DecidableEq

/-- Tagged-union model of a geometry dict. -/
inductive Geom where
  | point (coord : List ℚ)
  | lineString (coords : List (List ℚ))
  | polygon (rings : List (List (List ℚ)))
  | other (gtype : List Char) (coordsTruthy : Bool)
deriving Repr, DecidableEq

/-- Embedding of `CoordinatesFetcher._is_inside_bbox`: short coordinates are
rejected, then `south <= lat <= north and west <= lon <= east`. -/
def is_inside_bbox (coord : List ℚ) (bbox : BBox) : Bool :=
  match coord with
  | lat :: lon :: _ =>
    decide (bbox.south ≤ lat ∧ lat ≤ bbox.north ∧ bbox.west ≤ lon ∧ lon ≤ bbox.east)
  | _ => false

/-- Embedding of `is_coordinate_in_bbox` (embed_coordinates.py /
city_configs.py), which unpacks an exact pair. -/
def is_coordinate_in_bbox (coord : ℚ × ℚ) (bbox : BBox) : Bool :=
  decide (bbox.south ≤ coord.1 ∧ coord.1 ≤ bbox.north ∧
          bbox.west ≤ coord.2 ∧ coord.2 ≤ bbox.east)

/-- The per-coordinate test of `filter_geometries_by_bbox`
(embed_coordinates.py): `len(coord) >= 2` and the pair is inside the box. -/
def coordLenInBBox (c : List ℚ) (bbox : BBox) : Bool :=
  match c with
  | a :: b :: _ => is_coordinate_in_bbox (a, b) bbox
  | _ => false

/-- Python truthiness of `geom.get('coordinates', [])`. -/
def geomCoordsFalsy : Geom → Bool
  | .point c => c.isEmpty
  | .lineString cs => cs.isEmpty
  | .polygon rs => rs.isEmpty
  | .other _ t => !t

/-- Embedding of `CoordinatesFetcher._filter_geometries`: keeps only in-box
coordinates, dropping emptied features, re-closing polygon rings, and
returning the running `filtered_count` (a Python `int`, which the polygon
branch can in fact drive negative after re-closing). -/
def filter_geometries : List Geom → BBox → List Geom × Int
  | [], _ => ([], 0)
  | g :: gs, bbox =>
    let r := filter_geometries gs bbox
    match g with
    | .point c =>
      if is_inside_bbox c bbox then (.point c :: r.1, r.2) else (r.1, r.2 + 1)
    | .lineString coords =>
      let valid := coords.filter (fun c => is_inside_bbox c bbox)
      let kept := if valid.isEmpty then r.1 else .lineString valid :: r.1
      (kept, r.2 + ((coords.length : Int) - (valid.length : Int)))
    | .polygon rings =>
      let outer := rings.headD []
      let valid := outer.filter (fun c => is_inside_bbox c bbox)
      if 3 ≤ valid.length then
        let closed := if valid.head? ≠ valid.getLast? then valid ++ [valid.headD []] else valid
        (.polygon [closed] :: r.1, r.2 + ((outer.length : Int) - (closed.length : Int)))
      else
        (r.1, r.2 + ((outer.length : Int) - (valid.length : Int)))
    | .other _ _ => (r.1, r.2)

/-- Embedding of `filter_geometries_by_bbox` (embed_coordinates.py): filters
`LineString` and `Polygon` features, *passes every other geometry type
through unchanged*, and first skips features with falsy coordinates. -/
def filter_geometries_by_bbox : List Geom → BBox → List Geom
  | [], _ => []
  | g :: gs, bbox =>
    let rest := filter_geometries_by_bbox gs bbox
    if geomCoordsFalsy g then rest
    else
      match g with
      | .lineString coords =>
        let valid := coords.filter (fun c => coordLenInBBox c bbox)
        if valid.isEmpty then rest else .lineString valid :: rest
      | .polygon rings =>
        match rings with
        | [] => rest
        | outer :: _ =>
          let ring := outer.filter (fun c => coordLenInBBox c bbox)
          if 3 ≤ ring.length then .polygon [ring] :: rest else rest
      | g' => g' :: rest

/-- Embedding of `union_bboxes` (coordinates_fetcher.py). -/
def union_bboxes (bboxes : List BBox) : BBox :=
  match bboxes with
  | [] => ⟨0, 0, 0, 0⟩
  | b :: bs =>
    ⟨(bs.map BBox.south).foldl min b.south,
     (bs.map BBox.west).foldl min b.west,
     (bs.map BBox.north).foldl max b.north,
     (bs.map BBox.east).foldl max b.east⟩

example :
    filter_geometries [Geom.point [10, 10], Geom.lineString [[10, 10], [mkRat 1 2, mkRat 1 2]]]
      ⟨0, 0, 1, 1⟩ = ([Geom.lineString [[mkRat 1 2, mkRat 1 2]]], 2) := by decide
example :
    filter_geometries_by_bbox [Geom.point [10, 10]] ⟨0, 0, 1, 1⟩ =
      [Geom.point [10, 10]] := by decide
example : is_inside_bbox [0, 0] ⟨0, 0, 0, 0⟩ = true := by decide
example : is_inside_bbox [0, mkRat 1 1000] ⟨0, 0, 0, 0⟩ = false := by decide

/-! ## City configurations (city_configs.py)

Data transcription.  Decimal degrees are exact rationals written with
`mkRat` (e.g. `mkRat 41888 1000` is `41.888`); dicts are association lists
in the source insertion order.  A special-case value is either a list of
replacement strings (an empty list marks the name as unresolvable) or the
empty-string sentinel meaning "drop the matched text". -/

/-- Value of a `special_cases` entry: a replacement list or the `""`
sentinel. -/
inductive SCVal where
  | strs (l : List String)
  | emptyStr
deriving Repr, DecidableEq

/-- Embedding of the `CityConfig` dataclass. -/
structure CityConfig where
  city_name : String
  city_pattern : String
  default_bbox : BBox
  zone_bboxes : List (String × BBox)
  zone_mappings : List (String × String)
  special_cases : List (String × SCVal)
deriving Repr

/-- `create_rome_config()`. -/
def romeConfig : CityConfig where
  city_name := "Roma"
  city_pattern := "Roma"
  default_bbox := ⟨mkRat 418 10, mkRat 124 10, 42, mkRat 126 10⟩
  zone_bboxes :=
    [("esquilino", ⟨mkRat 41888 1000, mkRat 12495 1000, mkRat 41905 1000, mkRat 1252 100⟩),
     ("tuscolano", ⟨mkRat 41872067 1000000, mkRat 12508718 1000000,
                    mkRat 41884657 1000000, mkRat 12539617 1000000⟩),
     ("valle_aurelia", ⟨mkRat 41889 1000, mkRat 1241 100, mkRat 41925 1000, mkRat 1246 100⟩)]
  zone_mappings :=
    [("zona_esquilino", "esquilino"),
     ("zona_stazione_termini_esquilino", "esquilino"),
     ("zona_tuscolano", "tuscolano"),
     ("zona_valle_aurelia", "valle_aurelia"),
     ("assi_viari_inclusi_nel_perimetro_zona_valle_aurelia", "valle_aurelia")]
  special_cases :=
    [("la marmora", .strs ["La Marmora", "Lamarmora"]),
     ("sottopasso", .strs ["Sottopasso", "Sottopassaggio"]),
     ("pettinelli", .strs ["Turbigo"]),
     ("turati", .strs ["Filippo Turati", "F. Turati"]),
     ("giolitti", .strs ["Giovanni Giolitti", "G. Giolitti"]),
     ("amendola", .strs ["Giovanni Amendola", "G. Amendola"]),
     ("giacinto de vecchi pieralice", .strs ["Pieralice"]),
     ("anastasio II", .strs ["Anastasio Secondo"])]

/-- `create_milan_config()`. -/
def milanConfig : CityConfig where
  city_name := "Milano"
  city_pattern := "Milano"
  default_bbox := ⟨mkRat 45352097 1000000, mkRat 8980637 1000000,
                   mkRat 4559012 100000, mkRat 9385071 1000000⟩
  zone_bboxes :=
    [("zona_duomo", ⟨mkRat 4546 100, mkRat 9175 1000, mkRat 4547 100, mkRat 9205 1000⟩),
     ("navigli_darsena_colonne", ⟨mkRat 4544 100, mkRat 916 100, mkRat 45465 1000, mkRat 9195 1000⟩),
     ("stazione_centrale", ⟨mkRat 45468 1000, mkRat 9192 1000, mkRat 45494 1000, mkRat 9215 1000⟩),
     ("stazione_porta_garibaldi", ⟨mkRat 45475 1000, mkRat 9178 1000, mkRat 45495 1000, mkRat 9198 1000⟩),
     ("stazione_rogoredo", ⟨mkRat 45418 1000, mkRat 921 100, mkRat 45445 1000, mkRat 925 100⟩),
     ("rozzano", ⟨mkRat 4536097 100000, mkRat 9120197 1000000, mkRat 4539 100, mkRat 9201908 1000000⟩),
     ("via_padova", ⟨mkRat 45481992 1000000, mkRat 9211702 1000000,
                     mkRat 45511592 1000000, mkRat 9253951 1000000⟩)]
  zone_mappings :=
    [("zona_navigli", "navigli_darsena_colonne"),
     ("darsena_e_navigli", "navigli_darsena_colonne"),
     ("zona_darsena_e_navigli", "navigli_darsena_colonne"),
     ("colonne_di_san_lorenzo", "navigli_darsena_colonne"),
     ("duomo", "zona_duomo"),
     ("zona_stazione_centrale", "stazione_centrale"),
     ("zona_porta_garibaldi", "stazione_porta_garibaldi"),
     ("zona_rogoredo", "stazione_rogoredo"),
     ("stazione_ffss_centrale", "stazione_centrale"),
     ("stazione_ffss_porta_garibaldi", "stazione_porta_garibaldi"),
     ("stazione_ffss_rogoredo", "stazione_rogoredo"),
     ("rozzano_quartiere_dei_fiori", "rozzano"),
     ("via_padova", "via_padova")]
  special_cases :=
    [("duomo", .strs ["Duomo", "Piazza del Duomo", "Piazza Duomo"]),
     ("scala", .strs ["La Scala", "Teatro alla Scala", "Piazza della Scala"]),
     ("castello", .strs ["Castello Sforzesco", "Castello"]),
     ("bocconi", .strs ["Università Bocconi", "Via Bocconi"]),
     ("centrale", .strs ["Stazione Centrale", "Milano Centrale"]),
     ("garibaldi", .strs ["Porta Garibaldi", "Stazione Garibaldi"]),
     ("rogoredo", .strs ["Stazione Rogoredo"]),
     ("cadorna", .strs ["Cadorna", "Stazione Cadorna"]),
     ("loreto", .strs ["Piazzale Loreto"]),
     ("corvetto", .strs ["Corvetto", "Piazzale Luigi Emanuele Corvetto", "Piazzale Corvetto"]),
     ("gabrio rosa", .strs ["Gabriele Rosa", "Piazzale Gabriele Rosa"]),
     ("meda", .strs ["Filippo Meda"]),
     ("diaz", .strs ["Armando Diaz"]),
     ("porta genova", .strs ["Pta Genova", "P.ta Genova"]),
     ("xxiv maggio (lato mercato comunale/darsena)", .strs ["Mercato Comunale Ticinese", "Darsena"]),
     ("corso di porta ticinese (lato numero pari)", .strs ["Corso di Porta Ticinese", "Corso di P.ta Ticinese"]),
     (" (lato numeri pari)", .emptyStr),
     ("colonne di san lorenzo", .strs ["San Lorenzo"]),
     ("baden powell", .strs ["B.-Powell", "Baden-Powell", "B. Powell"]),
     ("giardino robert baden-powell", .strs ["Baden-Powell", "Parco Baden Powell", "Robert Baden-Powell"]),
     ("padova", .strs ["Viale Padova"]),
     ("dei gerani", .strs ["delle mimose"])]

/-- `create_bologna_config()`. -/
def bolognaConfig : CityConfig where
  city_name := "Bologna"
  city_pattern := "Bologna"
  default_bbox := ⟨mkRat 4445 100, mkRat 1125 100, mkRat 4455 100, mkRat 114 10⟩
  zone_bboxes :=
    [("centro_storico", ⟨mkRat 4449 100, mkRat 11335 1000, mkRat 44505 1000, mkRat 11355 1000⟩),
     ("bolognina", ⟨mkRat 44500325 1000000, mkRat 11330073 1000000,
                    mkRat 44524318 1000000, mkRat 11365108 1000000⟩)]
  zone_mappings :=
    [("centro_storico", "centro_storico"),
     ("zona_bolognina", "bolognina")]
  special_cases := []

/-- `create_padova_config()`. -/
def padovaConfig : CityConfig where
  city_name := "Padova"
  city_pattern := "Padova"
  default_bbox := ⟨mkRat 45364979 1000000, mkRat 11825855 1000000,
                   mkRat 45445488 1000000, mkRat 11925435 1000000⟩
  zone_bboxes :=
    [("stazione_ferroviaria", ⟨mkRat 45411442 1000000, mkRat 11870238 1000000,
                               mkRat 45424275 1000000, mkRat 11889816 1000000⟩),
     ("arcella", ⟨mkRat 45416841 1000000, mkRat 11868553 1000000,
                  mkRat 45430094 1000000, mkRat 11900153 1000000⟩)]
  zone_mappings :=
    [("centro_storico", "centro_storico"),
     ("quartiere_arcella", "arcella")]
  special_cases :=
    [(" (confine nord)", .strs [""]),
     (" (confine sud)", .strs [""]),
     (" (confine est)", .strs [""]),
     (" (confine ovest)", .strs [""]),
     ("Card. Callegari", .strs ["Cardinale Callegari", "Callegari"]),
     ("Area antistante all\x27autostazione", .strs ["autostazione"]),
     ("antistante all\x27autostazione", .strs ["autostazione"]),
     ("antistante", .strs ["autostazione"])]

/-- The `CITIES` registry, in source insertion order. -/
def CITIES : List (String × CityConfig) :=
  [("RM", romeConfig), ("MI", milanConfig), ("PD", padovaConfig), ("BO", bolognaConfig)]

/-- Python `dict` lookup on an association list. -/
def alistFind (l : List (String × α)) (k : String) : Option α :=
  match l.find? (fun p => p.1 == k) with
  | some p => some p.2
  | none => none

/-! ## Zone bounding-box lookup -/

/-- `str.lower` on `String`. -/
def lowerS (s : String) : String := ⟨lowerL s.data⟩

/-- `str.strip()` on `String`. -/
def stripS (s : String) : String := ⟨stripL s.data⟩

/-- Python `pat in s` on `String`. -/
def containsS (s pat : String) : Bool := containsL s.data pat.data

/-- Python `s.replace(pat, rep)` on `String`. -/
def replaceS (s pat rep : String) : String := ⟨replaceL pat.data rep.data s.data⟩

/-- Python `s.startswith(p)` on `String`. -/
def startsWithS (s p : String) : Bool := p.data.isPrefixOf s.data

/-- First `some` produced while iterating a list (a loop whose body may
`return`). -/
def firstSome : List α → (α → Option β) → Option β
  | [], _ => none
  | x :: xs, f =>
    match f x with
    | some b => some b
    | none => firstSome xs f

/-- The common body of `get_zone_bbox` in coordinates_fetcher.py (after its
`no_` early return) and in embed_coordinates.py (where it is the whole
function): direct key, mapping key, case-insensitive key, substring match on
mappings, then the `zone_clean` fuzzy passes over bbox keys and mappings. -/
def zone_bbox_lookup (cfg : CityConfig) (zone_name : String) : Option BBox :=
  match alistFind cfg.zone_bboxes zone_name with
  | some b => some b
  | none =>
  match (match alistFind cfg.zone_mappings zone_name with
         | some mz => alistFind cfg.zone_bboxes mz
         | none => none) with
  | some b => some b
  | none =>
  let zone_lower := lowerS zone_name
  match firstSome cfg.zone_bboxes
      (fun p => if lowerS p.1 == zone_lower then some p.2 else none) with
  | some b => some b
  | none =>
  match firstSome cfg.zone_mappings
      (fun p =>
        if containsS (lowerS p.1) zone_lower || containsS zone_lower (lowerS p.1) then
          alistFind cfg.zone_bboxes p.2
        else none) with
  | some b => some b
  | none =>
  let zone_clean := stripS (replaceS (replaceS (replaceS zone_lower "." "") "ff.ss." "") "stazione" "")
  match firstSome cfg.zone_bboxes
      (fun p =>
        let bbox_clean := replaceS (replaceS (lowerS p.1) "stazione_" "") "zona_" ""
        if containsS bbox_clean zone_clean || containsS zone_clean bbox_clean then
          some p.2
        else none) with
  | some b => some b
  | none =>
    firstSome cfg.zone_mappings
      (fun p =>
        let mapping_clean :=
          replaceS (replaceS (replaceS (lowerS p.1) "stazione_" "") "zona_" "") "_" " "
        if containsS mapping_clean zone_clean || containsS zone_clean mapping_clean then
          alistFind cfg.zone_bboxes p.2
        else none)

/-- Embedding of `get_zone_bbox` (coordinates_fetcher.py): every zone name
starting with `no_` short-circuits to the degenerate box `(0, 0, 0, 0)`. -/
def get_zone_bbox (cfg : CityConfig) (zone_name : String) : Option BBox :=
  if startsWithS zone_name "no_" then some ⟨0, 0, 0, 0⟩
  else zone_bbox_lookup cfg zone_name

/-- Embedding of `get_zone_bbox` (embed_coordinates.py), which has no `no_`
branch. -/
def get_zone_bbox_embed (cfg : CityConfig) (zone_name : String) : Option BBox :=
  zone_bbox_lookup cfg zone_name

/-- The zone-box selection of `PlacesEmbedder.process_specification`
(embed_coordinates.py lines 412-418): with a city configuration, a `no_`
zone uses `(0, 0, 0, 0)` directly, anything else goes through
`get_zone_bbox`. -/
def process_zone_bbox (cfg? : Option CityConfig) (zone_name : String) : Option BBox :=
  match cfg? with
  | none => none
  | some cfg =>
    if startsWithS zone_name "no_" then some ⟨0, 0, 0, 0⟩
    else get_zone_bbox_embed cfg zone_name

example : get_zone_bbox romeConfig "no_anything" = some ⟨0, 0, 0, 0⟩ := by decide
example : get_zone_bbox romeConfig "zona_esquilino" =
    some ⟨mkRat 41888 1000, mkRat 12495 1000, mkRat 41905 1000, mkRat 1252 100⟩ := by decide

/-! ## The name-variant generator (`CoordinatesFetcher._generate_variants`) -/

/-- Python `s[n:]` on `String`. -/
def dropS (s : String) (n : Nat) : String := ⟨s.data.drop n⟩

/-- Python no-argument `split()` on `String`. -/
def wordsS (s : String) : List String := (pyWordsL s.data).map (fun l => ⟨l⟩)

/-- Python `" ".join(ws)`. -/
def joinSpaceS (ws : List String) : String := ⟨List.intercalate " ".data (ws.map String.data)⟩

/-- The street-type markers stripped by `_generate_variants`, in source
order. -/
def variantPrefixes : List String :=
  ["Via ", "Viale ", "Piazza ", "Piazzale ", "Corso ", "Largo "]

/-- First phase of the special-case loop of `_generate_variants`: substring
matches against the lowered base name.  `none` models the mid-loop
`return []` triggered by an empty replacement list. -/
def scLoop1 (base_lower origPfx : String) :
    List (String × SCVal) → List String → Option (List String)
  | [], acc => some acc
  | (pat, repl) :: rest, acc =>
    let patL := lowerS pat
    if base_lower == patL || containsS base_lower patL then
      match repl with
      | .strs [] => none
      | .emptyStr => scLoop1 base_lower origPfx rest acc
      | .strs l =>
        scLoop1 base_lower origPfx rest
          (acc ++ l.foldl
            (fun a r => a ++ [r] ++ (if origPfx ≠ "" then [origPfx ++ r] else [])) [])
    else scLoop1 base_lower origPfx rest acc

/-- Second phase of the special-case loop of `_generate_variants`: a
word-slice of the lowered base name equal to the pattern's words is replaced
by each replacement string. -/
def scLoop2 (words : List String) (origPfx : String)
    (cases : List (String × SCVal)) : List String :=
  cases.foldl
    (fun acc pr =>
      let pw := wordsS (lowerS pr.1)
      if pw.length ≤ words.length then
        acc ++ (List.range (words.length - pw.length + 1)).foldl
          (fun a i =>
            if (words.drop i).take pw.length == pw then
              match pr.2 with
              | .strs l =>
                a ++ l.foldl
                  (fun b r =>
                    let v := joinSpaceS (words.take i ++ [r] ++ words.drop (i + pw.length))
                    b ++ [v] ++ (if origPfx ≠ "" then [origPfx ++ v] else [])) []
              | .emptyStr => a
            else a) []
      else acc) []

/-- The final dedup pass of `_generate_variants`: strip each candidate, drop
empties, and keep the first occurrence of each lower-cased form. -/
def dedupGo (seen : List String) : List String → List String
  | [] => []
  | v :: vs =>
    let vc := stripS v
    if vc ≠ "" && !(seen.contains (lowerS vc)) then
      vc :: dedupGo (lowerS vc :: seen) vs
    else dedupGo seen vs

/-- Body of `_generate_variants` after the prefix detection: the initial
candidate list (name, then the base name when it differs), the two
special-case phases, and the final dedup. -/
def gvFinish (name : String) (city : CityConfig) (base origPfx : String) : List String :=
  match scLoop1 (lowerS base) origPfx city.special_cases
      ([name] ++ (if base ≠ name then [base] else [])) with
  | none => []
  | some vs1 => dedupGo [] (vs1 ++ scLoop2 (wordsS (lowerS base)) origPfx city.special_cases)

/-- Embedding of `CoordinatesFetcher._generate_variants`: detect the first
matching street-type marker (remembering it and stripping it from the base
name), then run the special-case phases and dedup. -/
def generate_variants (name : String) (city : CityConfig) : List String :=
  match variantPrefixes.find? (fun p => startsWithS name p) with
  | some p => gvFinish name city (stripS (dropS name p.data.length)) p
  | none => gvFinish name city name ""

example : generate_variants "Via Pio XI" romeConfig = ["Via Pio XI", "Pio XI"] := by decide
example : generate_variants "Via Anastasio II" romeConfig =
    ["Via Anastasio II", "Anastasio II", "Anastasio Secondo", "Via Anastasio Secondo"] := by decide
example : generate_variants "Via Roma " romeConfig = ["Via Roma", "Roma"] := by decide
example : generate_variants "Via Giovanni Amendola" romeConfig =
    ["Via Giovanni Amendola", "Giovanni Amendola", "G. Amendola", "Via G. Amendola",
     "giovanni Giovanni Amendola", "Via giovanni Giovanni Amendola",
     "giovanni G. Amendola", "Via giovanni G. Amendola"] := by decide

/-! ## Composite geometry: coordinate extraction and intersection point

`calculate_distance` is the haversine over `math.sin`/`cos`/`asin` floats:
transcendental floating-point arithmetic, which has no exact executable
model.  It is therefore the abstracted boundary of this part: the functions
below take the distance function `dist` as an explicit argument, and the
concrete theorems instantiate it only at inputs where the floating-point
value is exact (for two equal points every delta term of the formula is
`sin(0.0) = 0.0`, so `calculate_distance(p, p)` returns exactly `0.0`). -/

/-- A coordinate pair as unpacked by `extract_all_coordinates`. -/
abbrev Pt := ℚ × ℚ

/-- Containment in an optional zone box (`zone_bbox is None or ...`). -/
def inOptBBox (zb : Option BBox) (p : Pt) : Bool :=
  match zb with
  | none => true
  | some bb => is_coordinate_in_bbox p bb

/-- A place entry of the coordinates catalog: `geometries` plus
`special_coordinates`. -/
structure PlaceData where
  geometries : List Geom
  special_coordinates : List Geom
deriving Repr, DecidableEq

/-- Coordinate-list pass of `extract_all_coordinates`: keep pairs of length
at least 2 that lie in the optional zone box. -/
def extractCoords (zb : Option BBox) (cs : List (List ℚ)) : List Pt :=
  cs.foldr
    (fun c acc =>
      match c with
      | a :: b :: _ => if inOptBBox zb (a, b) then (a, b) :: acc else acc
      | _ => acc) []

/-- Per-geometry pass of `extract_all_coordinates` over the `geometries`
list.  The source iterates `coordinates` as a list of coordinate lists, so a
`Point` there raises `TypeError` (`len` of a float) and an empty `Polygon`
ring list raises `IndexError`; both are modelled as `none` (no enclosing
handler exists).  `other` payload shapes are outside the model. -/
def extractFromGeom (zb : Option BBox) : Geom → Option (List Pt)
  | .point _ => none
  | .lineString cs => some (extractCoords zb cs)
  | .polygon rings =>
    match rings with
    | [] => none
    | r :: _ => some (extractCoords zb r)
  | .other _ _ => none

/-- Per-entry pass of `extract_all_coordinates` over `special_coordinates`:
only `Point` entries with at least two coordinates contribute. -/
def extractSpecial (zb : Option BBox) : Geom → List Pt
  | .point c =>
    match c with
    | a :: b :: _ => if inOptBBox zb (a, b) then [(a, b)] else []
    | _ => []
  | _ => []

/-- Embedding of `extract_all_coordinates` (embed_coordinates.py): all
points of the geometries (outer ring only for polygons) followed by the
special `Point` entries, filtered by the optional zone box. -/
def extract_all_coordinates (pd : PlaceData) (zb : Option BBox) : Option (List Pt) := do
  let gs ← pd.geometries.mapM (extractFromGeom zb)
  pure (gs.flatten ++ (pd.special_coordinates.map (extractSpecial zb)).flatten)

/-- One update step of the nearest-pair search (strictly smaller distance
wins, so the first pair attaining the minimum is kept). -/
def bestPairUpd (dist : Pt → Pt → ℚ) (st : Option (ℚ × Pt × Pt)) (p1 p2 : Pt) :
    Option (ℚ × Pt × Pt) :=
  let d := dist p1 p2
  match st with
  | none => some (d, p1, p2)
  | some (m, a, b) => if d < m then some (d, p1, p2) else some (m, a, b)

/-- Inner loop of the nearest-pair search: fold the update over `points2`
for a fixed `p1`. -/
def innerLoop (dist : Pt → Pt → ℚ) (p1 : Pt) :
    Option (ℚ × Pt × Pt) → List Pt → Option (ℚ × Pt × Pt)
  | st, [] => st
  | st, p2 :: rest => innerLoop dist p1 (bestPairUpd dist st p1 p2) rest

/-- Outer loop of the nearest-pair search over `points1`. -/
def outerLoop (dist : Pt → Pt → ℚ) (pts2 : List Pt) :
    Option (ℚ × Pt × Pt) → List Pt → Option (ℚ × Pt × Pt)
  | st, [] => st
  | st, p1 :: rest => outerLoop dist pts2 (innerLoop dist p1 st pts2) rest

/-- The double loop of `find_intersection_point`: minimum-distance pair over
`points1 × points2` in iteration order. -/
def bestPair (dist : Pt → Pt → ℚ) (pts1 pts2 : List Pt) : Option (ℚ × Pt × Pt) :=
  outerLoop dist pts2 none pts1

/-- Embedding of `find_intersection_point` (embed_coordinates.py).  The outer
`none` is a raised exception from `extract_all_coordinates`; `some none` is
the Python `None` result.  Every extracted pair takes part in the search —
the source applies no validity or sentinel filtering — and the emitted
point is the arithmetic mean of the chosen pair, kept only if inside the
optional zone box. -/
def find_intersection_point (dist : Pt → Pt → ℚ) (pd1 pd2 : PlaceData)
    (threshold : ℚ) (zb : Option BBox) : Option (Option Pt) := do
  let pts1 ← extract_all_coordinates pd1 zb
  let pts2 ← extract_all_coordinates pd2 zb
  if pts1.isEmpty || pts2.isEmpty then pure none
  else
    match bestPair dist pts1 pts2 with
    | none => pure none
    | some (m, p1, p2) =>
      if m < threshold then
        let ip : Pt := ((p1.1 + p2.1) / 2, (p1.2 + p2.2) / 2)
        if inOptBBox zb ip then pure (some ip) else pure none
      else pure none

/-- A `special_coordinates` entry produced by the `incrocio` branch of
`process_specification`. -/
structure SpecialCoord where
  ctype : String
  coordinates : List ℚ
  calculated_intersection : Bool
  bbox_filtered : Bool
deriving Repr, DecidableEq

/-- The `incrocio` branch of `process_specification` (embed_coordinates.py
lines 497-507): a found intersection point becomes a single special `Point`
tagged `calculated_intersection = True`. -/
def incrocio_specials (dist : Pt → Pt → ℚ) (pd1 pd2 : PlaceData) (zb : Option BBox) :
    Option (Option (List SpecialCoord)) :=
  match find_intersection_point dist pd1 pd2 100 zb with
  | none => none
  | some none => some none
  | some (some ip) => some (some [⟨"Point", [ip.1, ip.2], true, zb.isSome⟩])

/-! ## Duplicate-removing geometry merge (city_configs.py) -/

/-- Model of a raw geometry dict as consumed by
`merge_duplicate_geometries`: only `type` and `coordinates` take part in
the duplicate check; `meta` stands for all remaining keys. -/
structure GeomRec where
  gtype : Option String
  coordinates : Option (List (List ℚ))
  meta : Nat := 0
deriving Repr, DecidableEq

/-- The duplicate test of `merge_duplicate_geometries`: equal `type` and
equal `coordinates` (missing keys compare equal, as Python `None == None`). -/
def sameTypeCoords (a b : GeomRec) : Bool :=
  a.gtype == b.gtype && a.coordinates == b.coordinates

/-- Embedding of `merge_duplicate_geometries` (city_configs.py): start from
the existing list (`merged`, the first argument) and append each new
geometry whose `type`/`coordinates` pair does not already occur in the list
built so far. -/
def merge_duplicate_geometries (merged : List GeomRec) : List GeomRec → List GeomRec
  | [] => merged
  | ng :: rest =>
    if merged.any (fun eg => sameTypeCoords eg ng) then
      merge_duplicate_geometries merged rest
    else
      merge_duplicate_geometries (merged ++ [ng]) rest

/-! ## The external search adapters (`_search_nominatim`, `_get_geometry`)

The HTTP layer is the boundary: a response is either a raised `requests`
exception (`exn` — timeout, connection error), or a status code with an
optional parsed JSON body (`none` models a `response.json()` that raises).
Both functions wrap their bodies in `try/except` returning `[]`. -/

/-- Outcome of one HTTP request at the boundary. -/
inductive HttpResp (α : Type) where
  | exn
  | status (code : Nat) (body : Option α)

/-- One parsed Nominatim search result. -/
structure NomResult where
  osm_type : String
  cls : Option String
  rtype : Option String
  display_name : Option String
  osm_id : String
deriving Repr, DecidableEq

/-- Embedding of `CoordinatesFetcher._search_nominatim`: on a 200 response
keep ways/nodes whose `class` is highway/leisure/amenity or whose `type` is
marketplace, and whose display name contains the city pattern; every
failure (exception, non-200 status, malformed body) yields `[]`. -/
def search_nominatim (city : CityConfig) (resp : HttpResp (List NomResult)) : List String :=
  match resp with
  | .exn => []
  | .status code body =>
    if code == 200 then
      match body with
      | none => []
      | some results =>
        (results.filter
          (fun r =>
            ((r.osm_type == "way" || r.osm_type == "node") &&
               (r.cls == some "highway" || r.cls == some "leisure" || r.cls == some "amenity") ||
             (r.osm_type == "way" || r.osm_type == "node") && r.rtype == some "marketplace") &&
            containsS (match r.display_name with | some d => d | none => "") city.city_pattern)).map
          (fun r => r.osm_id)
    else []

/-- One parsed Overpass element. -/
structure OvElem where
  etype : Option String
  lat : Option ℚ
  lon : Option ℚ
  tags : List (String × String)
  geometry : Option (List (ℚ × ℚ))
deriving Repr, DecidableEq

/-- Python `tags.get(k, '')`. -/
def tagGet (tags : List (String × String)) (k : String) : String :=
  match alistFind tags k with
  | some v => v
  | none => ""

/-- Embedding of `CoordinatesFetcher._get_geometry` over the two Overpass
responses it performs.  The only branch that produces geometry is a `node`
element with truthy (non-`None`, nonzero) coordinates.  In every way-element
branch the source's final assembly loop reads the local variable
`geometries` (and, in the marketplace branch, `elements`) before any
assignment, so it raises `NameError`, which the enclosing handler turns into
`[]`; all failures of either request likewise yield `[]`. -/
def get_geometry (_city : CityConfig) (resp1 resp2 : HttpResp (List OvElem)) : List Geom :=
  match resp1 with
  | .exn => []
  | .status code1 body1 =>
    if code1 != 200 then []
    else
      match body1 with
      | none => []
      | some elems =>
        match elems with
        | [] => []
        | element :: _ =>
          let nodePoint : Option (List Geom) :=
            if element.etype == some "node" then
              match element.lat, element.lon with
              | some a, some b => if a ≠ 0 && b ≠ 0 then some [.point [a, b]] else none
              | _, _ => none
            else none
          match nodePoint with
          | some r => r
          | none =>
            let name := tagGet element.tags "name"
            let amenity := tagGet element.tags "amenity"
            if name == "" && amenity != "marketplace" then []
            else if name != "" then
              match resp2 with
              | .exn => []
              | .status code2 body2 =>
                if code2 != 200 then []
                else
                  match body2 with
                  | none => []
                  | some _ => []
            else []

example :
    merge_duplicate_geometries
      [⟨some "Point", some [[1, 2]], 0⟩]
      [⟨some "Point", some [[1, 2]], 7⟩, ⟨some "LineString", some [[3, 4]], 1⟩] =
      [⟨some "Point", some [[1, 2]], 0⟩, ⟨some "LineString", some [[3, 4]], 1⟩] := by decide
example :
    find_intersection_point (fun _ _ => 5)
      ⟨[Geom.lineString [[1, 2]]], []⟩ ⟨[Geom.lineString [[3, 4]]], []⟩ 100 none =
      some (some ((1 + 3) / 2, (2 + 4) / 2)) := rfl
example : search_nominatim romeConfig (.status 404 none) = [] := by decide
example : get_geometry romeConfig (.status 200 (some [⟨some "node", some 41, some 12, [], none⟩])) .exn =
    [Geom.point [41, 12]] := by decide

/-! ## The resolver (`CoordinatesFetcher.fetch_place`)

`_search_overpass_direct` is pure HTTP plumbing (query construction over the
Overpass boundary plus the same zone filtering); like the raw requests it is
part of the boundary and enters as an oracle giving its returned geometry
list.  The runs below also return the list of external searches performed,
so that "performs no external call" is an observable statement. -/

/-- One cache entry (`{'type': ..., 'geometries': [...]}`). -/
structure CacheEntry where
  etype : String
  geometries : List Geom
deriving Repr, DecidableEq

/-- The in-memory cache dict. -/
abbrev Cache := List (String × CacheEntry)

/-- Python dict assignment `cache[k] = v`. -/
def cacheInsert (c : Cache) (k : String) (v : CacheEntry) : Cache :=
  if (alistFind c k).isSome then
    c.map (fun p => if p.1 == k then (k, v) else p)
  else c ++ [(k, v)]

/-- The `self.stats` counters (`filtered` counts are Python ints and can be
driven negative by the polygon re-closing, so they are `Int`). -/
structure Stats where
  fetched : Nat
  cached : Nat
  failed : Nat
  filtered : Int
  zone_filtered : Int
deriving Repr, DecidableEq

/-- Mutable state of a `CoordinatesFetcher`. -/
structure FetchState where
  cache : Cache
  stats : Stats
deriving Repr, DecidableEq

/-- The external boundary of `fetch_place`: the HTTP responses of the two
search backends (per query string), of the civic Overpass query (per
variant and civic number), and the result of the direct Overpass fallback
`_search_overpass_direct`. -/
structure Backend where
  nomResp : String → HttpResp (List NomResult)
  ovResp1 : String → HttpResp (List OvElem)
  ovResp2 : String → HttpResp (List OvElem)
  civicResp : String → String → HttpResp (List OvElem)
  directResult : String → List BBox → List Geom

/-- Geometry assembly of `_fetch_civic` from parsed Overpass elements:
truthy node coordinates or the first vertex of a way, kept only inside the
city default box. -/
def civicGeomsOfElems (city : CityConfig) (elems : List OvElem) : List Geom :=
  elems.foldr
    (fun e acc =>
      match e.etype with
      | some "node" =>
        match e.lat, e.lon with
        | some a, some b =>
          if a ≠ 0 && b ≠ 0 && is_inside_bbox [a, b] city.default_bbox then
            .point [a, b] :: acc
          else acc
        | _, _ => acc
      | some "way" =>
        match e.geometry with
        | some (p :: _) =>
          if is_inside_bbox [p.1, p.2] city.default_bbox then .point [p.1, p.2] :: acc else acc
        | _ => acc
      | _ => acc) []

/-- Python `for geom in l: if geom not in unique: unique.append(geom)`. -/
def dedupGeomsGo (acc : List Geom) : List Geom → List Geom
  | [] => acc
  | g :: gs => if g ∈ acc then dedupGeomsGo acc gs else dedupGeomsGo (acc ++ [g]) gs

/-- The variant loop of `_fetch_civic`: every exception or failed request
moves on to the next variant; a success (after in-box filtering, per-zone
filtering and dedup) writes the cache under `cache_key` and stops. -/
def fetchCivicLoop (B : Backend) (city : CityConfig) (cache_key civic_num : String)
    (zone_bboxes : List BBox) :
    FetchState → List String → List String → Bool × FetchState × List String
  | st, log, [] => (false, st, log)
  | st, log, v :: vs =>
    let log := log ++ ["civic:" ++ v]
    match B.civicResp v civic_num with
    | .exn => fetchCivicLoop B city cache_key civic_num zone_bboxes st log vs
    | .status code body =>
      if code == 200 then
        match body with
        | none => fetchCivicLoop B city cache_key civic_num zone_bboxes st log vs
        | some elems =>
          let geoms := civicGeomsOfElems city elems
          if geoms.isEmpty then
            fetchCivicLoop B city cache_key civic_num zone_bboxes st log vs
          else if zone_bboxes.isEmpty then
            (true, ⟨cacheInsert st.cache cache_key ⟨"civic", geoms⟩, st.stats⟩, log)
          else
            let fz := zone_bboxes.foldl
              (fun (p : List Geom × Int) zb =>
                let fc := filter_geometries geoms zb
                (p.1 ++ fc.1, p.2 + fc.2)) ([], 0)
            let stats' := { st.stats with zone_filtered := st.stats.zone_filtered + fz.2 }
            let uniq := dedupGeomsGo [] fz.1
            if uniq.isEmpty then
              fetchCivicLoop B city cache_key civic_num zone_bboxes ⟨st.cache, stats'⟩ log vs
            else
              (true, ⟨cacheInsert st.cache cache_key ⟨"civic", uniq⟩, stats'⟩, log)
      else fetchCivicLoop B city cache_key civic_num zone_bboxes st log vs

/-- The variant loop of `fetch_place`: Nominatim search per variant, geometry
fetch per returned id, city-box filtering, then zone filtering; the first
variant with surviving geometry writes the cache under `cache_key`. -/
def tryVariantsLoop (B : Backend) (city : CityConfig) (cache_key place_name : String)
    (zone_bboxes : List BBox) :
    FetchState → List String → List String → Bool × FetchState × List String
  | st, log, [] => (false, st, log)
  | st, log, v :: vs =>
    let log := log ++ ["nominatim:" ++ v]
    let ids := search_nominatim city (B.nomResp v)
    if ids.isEmpty then tryVariantsLoop B city cache_key place_name zone_bboxes st log vs
    else
      let log := log ++ ids.map (fun i => "overpass:" ++ i)
      let all_geoms := ids.foldl (fun acc i => acc ++ get_geometry city (B.ovResp1 i) (B.ovResp2 i)) []
      if all_geoms.isEmpty then tryVariantsLoop B city cache_key place_name zone_bboxes st log vs
      else
        let cf := filter_geometries all_geoms city.default_bbox
        let stats1 := { st.stats with filtered := st.stats.filtered + cf.2 }
        let fz :=
          if !zone_bboxes.isEmpty && !cf.1.isEmpty then
            let zf := filter_geometries cf.1 (union_bboxes zone_bboxes)
            (zf.1, { stats1 with zone_filtered := stats1.zone_filtered + zf.2 })
          else (cf.1, stats1)
        if fz.1.isEmpty then
          tryVariantsLoop B city cache_key place_name zone_bboxes ⟨st.cache, fz.2⟩ log vs
        else
          let ptype := if containsS (lowerS place_name) "piazza" then "square" else "street"
          (true,
           ⟨cacheInsert st.cache cache_key ⟨ptype, fz.1⟩,
            { fz.2 with fetched := fz.2.fetched + 1 }⟩,
           log)

/-- Embedding of `CoordinatesFetcher.fetch_place`.  `none` is the `KeyError`
of `CITIES[city_prefix]`.  The result carries the Python return value, the
new state, and the list of external searches performed.  A cache hit under
`city_prefix + "_" + place_name` with nonempty geometries returns at once
with an empty search log.  On the direct-Overpass fallback path the source
stores the result under the *bare* `place_name` (line 836), not under
`cache_key`. -/
def fetch_place (B : Backend) (st : FetchState) (place_name city_prefix : String)
    (zones_info : String → List String) : Option (Bool × FetchState × List String) :=
  let cache_key := city_prefix ++ "_" ++ place_name
  let hit :=
    match alistFind st.cache cache_key with
    | some cached => !cached.geometries.isEmpty
    | none => false
  if hit then
    some (true, ⟨st.cache, { st.stats with cached := st.stats.cached + 1 }⟩, [])
  else
    match alistFind CITIES city_prefix with
    | none => none
    | some city =>
      let zone_bboxes := (zones_info place_name).foldr
        (fun z acc =>
          match get_zone_bbox city z with
          | some b => b :: acc
          | none => acc) []
      match civicDirectMatch place_name.data with
      | some (g1, num) =>
        let r := fetchCivicLoop B city cache_key ⟨num⟩ zone_bboxes st []
          (generate_variants ⟨stripL g1⟩ city)
        if r.1 then
          some (true, ⟨r.2.1.cache, { r.2.1.stats with fetched := r.2.1.stats.fetched + 1 }⟩, r.2.2)
        else
          some (false, ⟨r.2.1.cache, { r.2.1.stats with failed := r.2.1.stats.failed + 1 }⟩, r.2.2)
      | none =>
        let r := tryVariantsLoop B city cache_key place_name zone_bboxes st []
          (generate_variants place_name city)
        if r.1 then some (true, r.2.1, r.2.2)
        else
          let st' := r.2.1
          let log := r.2.2 ++ ["direct:" ++ place_name]
          let dg := B.directResult place_name zone_bboxes
          if !dg.isEmpty then
            let ptype := if containsS (lowerS place_name) "piazza" then "square" else "street"
            some (true,
              ⟨cacheInsert st'.cache place_name ⟨ptype, dg⟩,
               { st'.stats with fetched := st'.stats.fetched + 1 }⟩, log)
          else
            some (false, ⟨st'.cache, { st'.stats with failed := st'.stats.failed + 1 }⟩, log)

/-! ## Claim C5 — Roman-numeral ordinal variants -/

/-- C5 counterexample: `"Via Pio XI"` ends in the Roman numeral `XI`, yet the
variant generator returns exactly the name and its prefix-stripped base —
no variant replaces the numeral with `Undicesimo` (or any ordinal word).
There is no Roman-numeral transliteration step in
`CoordinatesFetcher._generate_variants`. -/
theorem C5_counterexample :
    generate_variants "Via Pio XI" romeConfig = ["Via Pio XI", "Pio XI"] ∧
    (generate_variants "Via Pio XI" romeConfig).any (fun v => containsS v "Undicesimo") = false :=
  ⟨by decide, by decide⟩

/-- C5 amended: the generator performs no general Roman-numeral-to-ordinal
substitution; an ordinal form appears only when the city's special-case
table lists it, as Rome's `"anastasio II" -> ["Anastasio Secondo"]` does,
while other names ending in a Roman numeral get only the generic variants. -/
theorem C5_theorem :
    generate_variants "Via Anastasio II" romeConfig =
      ["Via Anastasio II", "Anastasio II", "Anastasio Secondo", "Via Anastasio Secondo"] ∧
    generate_variants "Piazza Vittorio Emanuele II" romeConfig =
      ["Piazza Vittorio Emanuele II", "Vittorio Emanuele II"] :=
  ⟨by decide, by decide⟩

/-! ## Claim C1 — cache write-through key and at-most-one resolution -/

/-- Fresh fetcher state: empty cache, zeroed counters. -/
def fetchState0 : FetchState := ⟨[], ⟨0, 0, 0, 0, 0⟩⟩

/-- A backend on which Nominatim always fails (so every variant yields no
results) while the direct Overpass fallback finds one point inside Rome. -/
def directOnlyBackend : Backend :=
  ⟨fun _ => .exn, fun _ => .exn, fun _ => .exn, fun _ _ => .exn,
   fun _ _ => [Geom.point [mkRat 419 10, mkRat 125 10]]⟩

/-- The cache entry the fallback path stores. -/
def directEntry : CacheEntry := ⟨"street", [Geom.point [mkRat 419 10, mkRat 125 10]]⟩

/-- C1: a place resolved through the direct-Overpass fallback is cached under
the bare name `"Via Roma"`, not under the claimed key `"RM_Via Roma"`; the
prefixed key is absent afterwards, so a second `fetch_place` for the same
(city, name) misses the cache and performs the whole external search
sequence again (same nonempty search log, `fetched` incremented again)
instead of being a cache hit. -/
theorem C1_theorem :
    fetch_place directOnlyBackend fetchState0 "Via Roma" "RM" (fun _ => []) =
      some (true, ⟨[("Via Roma", directEntry)], ⟨1, 0, 0, 0, 0⟩⟩,
        ["nominatim:Via Roma", "nominatim:Roma", "direct:Via Roma"]) ∧
    alistFind [("Via Roma", directEntry)] "RM_Via Roma" = none ∧
    fetch_place directOnlyBackend ⟨[("Via Roma", directEntry)], ⟨1, 0, 0, 0, 0⟩⟩
        "Via Roma" "RM" (fun _ => []) =
      some (true, ⟨[("Via Roma", directEntry)], ⟨2, 0, 0, 0, 0⟩⟩,
        ["nominatim:Via Roma", "nominatim:Roma", "direct:Via Roma"]) :=
  ⟨by decide, by decide, by decide⟩

/-! ## Claim C3 — the bounding-box filters keep only in-box points -/

/-- Every coordinate readable from the geometry lies inside the box (and the
geometry is one of the three dispatched types). -/
def geomAllInside (bbox : BBox) : Geom → Bool
  | .point c => is_inside_bbox c bbox
  | .lineString cs => cs.all (fun c => is_inside_bbox c bbox)
  | .polygon rings => rings.all (fun r => r.all (fun c => is_inside_bbox c bbox))
  | .other _ _ => false

/-- Containment restricted to the types `filter_geometries_by_bbox` actually
filters; other types are unconstrained because it passes them through. -/
def geomInsideLSP (bbox : BBox) : Geom → Bool
  | .lineString cs => cs.all (fun c => coordLenInBBox c bbox)
  | .polygon rings => rings.all (fun r => r.all (fun c => coordLenInBBox c bbox))
  | _ => true

lemma mem_filter_geometries_inside (bbox : BBox) :
    ∀ (geoms : List Geom) (g : Geom), g ∈ (filter_geometries geoms bbox).1 →
      geomAllInside bbox g = true := by
  intro geoms
  induction geoms with
  | nil => intro g h; simp [filter_geometries] at h
  | cons gm gs ih =>
    intro g h
    cases gm with
    | point c =>
      simp only [filter_geometries] at h
      split at h
      · rcases List.mem_cons.mp h with h1 | h1
        · subst h1; simpa [geomAllInside] using by assumption
        · exact ih g h1
      · exact ih g h
    | lineString coords =>
      simp only [filter_geometries] at h
      split at h
      · exact ih g h
      · rcases List.mem_cons.mp h with h1 | h1
        · subst h1
          simp only [geomAllInside, List.all_eq_true]
          intro c hc
          exact (List.mem_filter.mp hc).2
        · exact ih g h1
    | polygon rings =>
      simp only [filter_geometries] at h
      have hmem : ∀ c ∈ List.filter (fun c => is_inside_bbox c bbox) (rings.headD []),
          is_inside_bbox c bbox = true := fun c hc => (List.mem_filter.mp hc).2
      split at h
      · rcases List.mem_cons.mp h with h1 | h1
        · subst h1
          rename_i hlen
          have hne : List.filter (fun c => is_inside_bbox c bbox) (rings.headD []) ≠ [] := by
            intro hnil
            rw [hnil] at hlen
            simp at hlen
          simp only [geomAllInside, List.all_eq_true]
          intro r hr
          simp only [List.mem_singleton] at hr
          subst hr
          intro c hc
          have hc' : c ∈ List.filter (fun c => is_inside_bbox c bbox) (rings.headD []) ∨
              c = (List.filter (fun c => is_inside_bbox c bbox) (rings.headD [])).headD [] := by
            split at hc
            · rcases List.mem_append.mp hc with h2 | h2
              · exact Or.inl h2
              · exact Or.inr (by simpa using h2)
            · exact Or.inl hc
          rcases hc' with h2 | h2
          · exact hmem c h2
          · obtain ⟨x, xs, hx⟩ := List.exists_cons_of_ne_nil hne
            rw [hx] at h2
            subst h2
            exact hmem _ (by rw [hx]; exact List.mem_cons_self _ _)
        · exact ih g h1
      · exact ih g h
    | other t hc =>
      simp only [filter_geometries] at h
      exact ih g h

lemma mem_filter_by_bbox_lsp (bbox : BBox) :
    ∀ (geoms : List Geom) (g : Geom), g ∈ filter_geometries_by_bbox geoms bbox →
      geomInsideLSP bbox g = true := by
  intro geoms
  induction geoms with
  | nil => intro g h; simp [filter_geometries_by_bbox] at h
  | cons gm gs ih =>
    intro g h
    cases gm with
    | point c =>
      simp only [filter_geometries_by_bbox] at h
      split at h
      · exact ih g h
      · rcases List.mem_cons.mp h with h1 | h1
        · subst h1; rfl
        · exact ih g h1
    | lineString coords =>
      simp only [filter_geometries_by_bbox] at h
      split at h
      · exact ih g h
      · split at h
        · exact ih g h
        · rcases List.mem_cons.mp h with h1 | h1
          · subst h1
            simp only [geomInsideLSP, List.all_eq_true]
            intro c hc
            exact (List.mem_filter.mp hc).2
          · exact ih g h1
    | polygon rings =>
      simp only [filter_geometries_by_bbox] at h
      split at h
      · exact ih g h
      · split at h
        · exact ih g h
        · split at h
          · rcases List.mem_cons.mp h with h1 | h1
            · subst h1
              simp only [geomInsideLSP, List.all_eq_true]
              intro r hr
              simp only [List.mem_singleton] at hr
              subst hr
              intro c hc
              exact (List.mem_filter.mp hc).2
            · exact ih g h1
          · exact ih g h
    | other t b =>
      simp only [filter_geometries_by_bbox] at h
      split at h
      · exact ih g h
      · rcases List.mem_cons.mp h with h1 | h1
        · subst h1; rfl
        · exact ih g h1

/-- C3 amended: for the fetcher's `_filter_geometries` every output
geometry (Point, LineString and Polygon alike — no other type survives) has
all its coordinates inside the box; for `filter_geometries_by_bbox`
(embed_coordinates.py) the guarantee holds for the LineString and Polygon
features it filters, while other geometry types — including `Point` — are
passed through unchanged. -/
theorem C3_theorem :
    (∀ (geoms : List Geom) (bbox : BBox),
        (filter_geometries geoms bbox).1.all (geomAllInside bbox) = true) ∧
    (∀ (geoms : List Geom) (bbox : BBox),
        (filter_geometries_by_bbox geoms bbox).all (geomInsideLSP bbox) = true) := by
  constructor
  · intro geoms bbox
    rw [List.all_eq_true]
    intro g hg
    exact mem_filter_geometries_inside bbox geoms g hg
  · intro geoms bbox
    rw [List.all_eq_true]
    intro g hg
    exact mem_filter_by_bbox_lsp bbox geoms g hg

/-- C3 counterexample: `filter_geometries_by_bbox` keeps a `Point` that lies
outside the box, because its type dispatch only filters `LineString` and
`Polygon` and passes everything else through unchanged — so not every
output coordinate satisfies the box bounds for Point features. -/
theorem C3_counterexample :
    filter_geometries_by_bbox [Geom.point [10, 10]] ⟨0, 0, 1, 1⟩ = [Geom.point [10, 10]] ∧
    is_inside_bbox [10, 10] ⟨0, 0, 1, 1⟩ = false :=
  ⟨by decide, by decide⟩

/-! ## Claim C10 — merge keeps the existing list and appends only new keys -/

/-- Characterisation of the appended suffix: each element comes from the
`src` list and no geometry with equal `type` and `coordinates` occurs
anywhere before it in the merged result. -/
def extrasOK (res : List GeomRec) : List GeomRec → List GeomRec → Bool
  | [], _ => true
  | x :: xs, src =>
    decide (x ∈ src) && !(res.any (fun y => sameTypeCoords y x)) && extrasOK (res ++ [x]) xs src

lemma merge_extras (src : List GeomRec) :
    ∀ (new_gs acc : List GeomRec), (∀ x ∈ new_gs, x ∈ src) →
      ∃ extras, merge_duplicate_geometries acc new_gs = acc ++ extras ∧
        extrasOK acc extras src = true := by
  intro new_gs
  induction new_gs with
  | nil =>
    intro acc _
    exact ⟨[], by simp [merge_duplicate_geometries], rfl⟩
  | cons x xs ih =>
    intro acc hsub
    by_cases hdup : acc.any (fun eg => sameTypeCoords eg x) = true
    · obtain ⟨extras, heq, hok⟩ := ih acc (fun y hy => hsub y (List.mem_cons_of_mem x hy))
      refine ⟨extras, ?_, hok⟩
      simpa [merge_duplicate_geometries, hdup] using heq
    · obtain ⟨extras, heq, hok⟩ := ih (acc ++ [x]) (fun y hy => hsub y (List.mem_cons_of_mem x hy))
      refine ⟨x :: extras, ?_, ?_⟩
      · rw [merge_duplicate_geometries, if_neg hdup, heq, List.append_assoc]
        rfl
      · simp only [extrasOK, Bool.and_eq_true, decide_eq_true_eq, Bool.not_eq_true']
        exact ⟨⟨hsub x (List.mem_cons_self x xs), Bool.not_eq_true _ ▸ (by simpa using hdup)⟩, hok⟩

lemma merge_all_dup :
    ∀ (l acc : List GeomRec), (∀ x ∈ l, acc.any (fun eg => sameTypeCoords eg x) = true) →
      merge_duplicate_geometries acc l = acc := by
  intro l
  induction l with
  | nil => intro acc _; rfl
  | cons x xs ih =>
    intro acc hall
    rw [merge_duplicate_geometries, if_pos (hall x (List.mem_cons_self x xs))]
    exact ih acc (fun y hy => hall y (List.mem_cons_of_mem x hy))

/-- C10: `merge_duplicate_geometries(existing, new)` is `existing` (unchanged
and in order) followed by exactly those elements of `new` whose
`type`/`coordinates` pair does not already occur earlier in the result; in
particular merging a list with itself is the identity. -/
theorem C10_theorem :
    (∀ existing new_gs : List GeomRec,
        ∃ extras, merge_duplicate_geometries existing new_gs = existing ++ extras ∧
          extrasOK existing extras new_gs = true) ∧
    (∀ g : List GeomRec, merge_duplicate_geometries g g = g) := by
  constructor
  · intro existing new_gs
    exact merge_extras new_gs new_gs existing (fun _ h => h)
  · intro g
    refine merge_all_dup g g (fun x hx => ?_)
    rw [List.any_eq_true]
    exact ⟨x, hx, by simp [sameTypeCoords]⟩

/-! ## Claim C8 — `parse_specification` always puts the primary first -/

/-- C8: for every input string, the parsed result has a non-empty `places`
list whose first element is the `primary` field — in all four branches
(civico, tratto, incrocio, simple). -/
theorem C8_theorem :
    ∀ s : List Char,
      (parse_specification s).places.head? = some (parse_specification s).primary ∧
      (parse_specification s).places.isEmpty = false := by
  intro s
  simp only [parse_specification]
  rcases hc : civicParenMatch (stripL s) with _ | ⟨g1, num⟩
  · rcases ht : lazyScan (litThenRest "tratto compreso tra ".data) [] (stripL s) with _ | ⟨g1, tl⟩
    · rcases hi : lazyScan (litThenRest "incrocio con ".data) [] (stripL s) with _ | ⟨g1, g2⟩
      · simp [hc, ht, hi]
      · simp [hc, ht, hi]
    · simp [hc, ht]
  · simp [hc]

/-! ## Claim C9 — `no_` zones get the degenerate box -/

/-- A geometry owns a coordinate that the degenerate box `(0,0,0,0)` accepts
(read exactly as the filter reads coordinates). -/
def hasOriginCoord : Geom → Bool
  | .point c => is_inside_bbox c ⟨0, 0, 0, 0⟩
  | .lineString cs => cs.any (fun c => is_inside_bbox c ⟨0, 0, 0, 0⟩)
  | .polygon rings => (rings.headD []).any (fun c => is_inside_bbox c ⟨0, 0, 0, 0⟩)
  | .other _ _ => false

lemma isPrefixOf_append_self : ∀ (l m : List Char), l.isPrefixOf (l ++ m) = true := by
  intro l
  induction l with
  | nil => intro m; simp [List.isPrefixOf]
  | cons c cs ih => intro m; simp [List.isPrefixOf, ih]

lemma startsWithS_no (z : String) : startsWithS ("no_" ++ z) "no_" = true := by
  simp only [startsWithS, String.data_append]
  exact isPrefixOf_append_self "no_".data z.data

lemma filter_origin_empty :
    ∀ geoms : List Geom, geoms.all (fun g => !hasOriginCoord g) = true →
      (filter_geometries geoms ⟨0, 0, 0, 0⟩).1 = [] := by
  intro geoms
  induction geoms with
  | nil => intro _; rfl
  | cons g gs ih =>
    intro h
    rw [List.all_cons, Bool.and_eq_true] at h
    obtain ⟨hg, hgs⟩ := h
    have ihr := ih hgs
    cases g with
    | point c =>
      simp only [hasOriginCoord, Bool.not_eq_true'] at hg
      simp only [filter_geometries]
      rw [if_neg (by simp [hg])]
      exact ihr
    | lineString coords =>
      simp only [hasOriginCoord, Bool.not_eq_true'] at hg
      have hval : coords.filter (fun c => is_inside_bbox c ⟨0, 0, 0, 0⟩) = [] := by
        rw [List.filter_eq_nil_iff]
        intro a ha
        have := List.any_eq_false.mp hg a ha
        simpa using this
      simp only [filter_geometries, hval]
      simpa using ihr
    | polygon rings =>
      simp only [hasOriginCoord, Bool.not_eq_true'] at hg
      have hval : (rings.headD []).filter (fun c => is_inside_bbox c ⟨0, 0, 0, 0⟩) = [] := by
        rw [List.filter_eq_nil_iff]
        intro a ha
        have := List.any_eq_false.mp hg a ha
        simpa using this
      simp only [filter_geometries, hval]
      rw [if_neg (by simp)]
      exact ihr
    | other t b =>
      simp only [filter_geometries]
      exact ihr

/-- C9: every zone name beginning with `no_` short-circuits to the
degenerate box `(0, 0, 0, 0)` — both in the fetcher's `get_zone_bbox` and
in the zone selection of `process_specification` — a coordinate lies in
that box exactly when latitude and longitude are both zero, and filtering
with it empties every geometry list without an exact `(0, 0)` coordinate. -/
theorem C9_theorem :
    (∀ (cfg : CityConfig) (z : String),
        get_zone_bbox cfg ("no_" ++ z) = some ⟨0, 0, 0, 0⟩) ∧
    (∀ (cfg : CityConfig) (z : String),
        process_zone_bbox (some cfg) ("no_" ++ z) = some ⟨0, 0, 0, 0⟩) ∧
    (∀ (lat lon : ℚ) (rest : List ℚ),
        (is_inside_bbox (lat :: lon :: rest) ⟨0, 0, 0, 0⟩ = true) ↔ (lat = 0 ∧ lon = 0)) ∧
    (∀ geoms : List Geom,
        ((filter_geometries geoms ⟨0, 0, 0, 0⟩).1.isEmpty || geoms.any hasOriginCoord) = true) := by
  refine ⟨?_, ?_, ?_, ?_⟩
  · intro cfg z
    simp [get_zone_bbox, startsWithS_no z]
  · intro cfg z
    simp [process_zone_bbox, startsWithS_no z]
  · intro lat lon rest
    simp only [is_inside_bbox, decide_eq_true_eq]
    constructor
    · rintro ⟨h1, h2, h3, h4⟩
      exact ⟨le_antisymm h2 h1, le_antisymm h4 h3⟩
    · rintro ⟨rfl, rfl⟩
      exact ⟨le_refl 0, le_refl 0, le_refl 0, le_refl 0⟩
  · intro geoms
    by_cases h : geoms.any hasOriginCoord = true
    · simp [h]
    · have h' : geoms.any hasOriginCoord = false := by
        cases hv : geoms.any hasOriginCoord with
        | false => rfl
        | true => exact absurd hv h
      have hall : geoms.all (fun g => !hasOriginCoord g) = true := by
        rw [List.all_eq_true]
        intro g hgm
        have := List.any_eq_false.mp h' g hgm
        simpa using this
      simp [filter_origin_empty geoms hall]

/-! ## Claim C7 — backend failures are empty results, never exceptions -/

/-- An Overpass way element with a name tag: the only kind that reaches the
second request of `_get_geometry`. -/
def wayElem : OvElem := ⟨some "way", none, none, [("name", "Via Roma")], some []⟩

/-- A backend on which every request raises and the direct fallback finds
nothing. -/
def failingBackend : Backend :=
  ⟨fun _ => .exn, fun _ => .exn, fun _ => .exn, fun _ _ => .exn, fun _ _ => []⟩

/-- C7: for `_search_nominatim` and `_get_geometry`, a raised request
(timeout), a non-200 status and a malformed body each produce exactly the
result of an empty response: `[]`.  No exception reaches `fetch_place`,
which — as the final conjunct evaluates on an everything-fails backend —
keeps trying the remaining variants and then returns a not-found `False`. -/
theorem C7_theorem :
    (∀ city : CityConfig,
        search_nominatim city .exn = [] ∧
        search_nominatim city (.status 200 none) = [] ∧
        search_nominatim city (.status 200 (some [])) = []) ∧
    (∀ (city : CityConfig) (code : Nat) (body : Option (List NomResult)),
        code ≠ 200 → search_nominatim city (.status code body) = []) ∧
    (∀ (city : CityConfig) (resp2 : HttpResp (List OvElem)),
        get_geometry city .exn resp2 = [] ∧
        get_geometry city (.status 200 none) resp2 = [] ∧
        get_geometry city (.status 200 (some [])) resp2 = []) ∧
    (∀ (city : CityConfig) (code : Nat) (body : Option (List OvElem))
        (resp2 : HttpResp (List OvElem)),
        code ≠ 200 → get_geometry city (.status code body) resp2 = []) ∧
    (∀ city : CityConfig,
        get_geometry city (.status 200 (some [wayElem])) .exn = [] ∧
        get_geometry city (.status 200 (some [wayElem])) (.status 200 none) = []) ∧
    (∀ (city : CityConfig) (code2 : Nat) (body2 : Option (List OvElem)),
        code2 ≠ 200 →
        get_geometry city (.status 200 (some [wayElem])) (.status code2 body2) = []) ∧
    fetch_place failingBackend fetchState0 "Via Test" "RM" (fun _ => []) =
      some (false, ⟨[], ⟨0, 0, 1, 0, 0⟩⟩,
        ["nominatim:Via Test", "nominatim:Test", "direct:Via Test"]) := by
  refine ⟨?_, ?_, ?_, ?_, ?_, ?_, by decide⟩
  · intro city
    exact ⟨rfl, rfl, rfl⟩
  · intro city code body hc
    simp only [search_nominatim]
    rw [if_neg (by simpa using hc)]
  · intro city resp2
    exact ⟨rfl, rfl, rfl⟩
  · intro city code body resp2 hc
    simp only [get_geometry]
    rw [if_pos (by simpa using hc)]
  · intro city
    exact ⟨rfl, rfl⟩
  · intro city code2 body2 hc
    have h2 : (code2 != 200) = true := by simpa using hc
    simp only [get_geometry, wayElem, tagGet, alistFind]
    simp [h2]

/-- C7 witness: the failure branches instantiated at Rome and status 500. -/
theorem C7_witness :
    search_nominatim romeConfig (.status 500 (some [])) = [] ∧
    get_geometry romeConfig (.status 500 none) .exn = [] ∧
    get_geometry romeConfig (.status 200 (some [wayElem])) (.status 500 none) = [] :=
  ⟨C7_theorem.2.1 romeConfig 500 (some []) (by decide),
   C7_theorem.2.2.2.1 romeConfig 500 none .exn (by decide),
   C7_theorem.2.2.2.2.2.1 romeConfig 500 none (by decide)⟩

/-! ## Claim C4 — the nearest-pair search and the emitted midpoint -/

lemma bestPairUpd_spec (dist : Pt → Pt → ℚ) (st : Option (ℚ × Pt × Pt)) (p1 p2 : Pt) :
    ∃ mu au bu, bestPairUpd dist st p1 p2 = some (mu, au, bu) ∧
      mu ≤ dist p1 p2 ∧
      (∀ m0 a0 b0, st = some (m0, a0, b0) → mu ≤ m0) ∧
      (some (mu, au, bu) = st ∨ (au = p1 ∧ bu = p2 ∧ mu = dist p1 p2)) := by
  cases st with
  | none =>
    refine ⟨dist p1 p2, p1, p2, rfl, le_refl _, ?_, Or.inr ⟨rfl, rfl, rfl⟩⟩
    intro m0 a0 b0 h
    cases h
  | some t =>
    obtain ⟨m0, a0, b0⟩ := t
    by_cases h : dist p1 p2 < m0
    · refine ⟨dist p1 p2, p1, p2, by simp [bestPairUpd, h], le_refl _, ?_, Or.inr ⟨rfl, rfl, rfl⟩⟩
      intro m1 a1 b1 he
      simp only [Option.some.injEq, Prod.mk.injEq] at he
      exact he.1 ▸ le_of_lt h
    · refine ⟨m0, a0, b0, by simp [bestPairUpd, h], not_lt.mp h, ?_, Or.inl rfl⟩
      intro m1 a1 b1 he
      simp only [Option.some.injEq, Prod.mk.injEq] at he
      exact he.1 ▸ le_refl _

lemma innerLoop_spec (dist : Pt → Pt → ℚ) (p1 : Pt) :
    ∀ (pts2 : List Pt) (st : Option (ℚ × Pt × Pt)), pts2 ≠ [] ∨ st.isSome = true →
      ∃ m a b, innerLoop dist p1 st pts2 = some (m, a, b) ∧
        (some (m, a, b) = st ∨ (a = p1 ∧ b ∈ pts2 ∧ m = dist p1 b)) ∧
        (∀ q2 ∈ pts2, m ≤ dist p1 q2) ∧
        (∀ m0 a0 b0, st = some (m0, a0, b0) → m ≤ m0) := by
  intro pts2
  induction pts2 with
  | nil =>
    intro st h
    rcases h with h | h
    · exact absurd rfl h
    · obtain ⟨t, ht⟩ := Option.isSome_iff_exists.mp h
      obtain ⟨m0, a0, b0⟩ := t
      subst ht
      refine ⟨m0, a0, b0, rfl, Or.inl rfl, ?_, ?_⟩
      · intro q2 hq
        exact (List.not_mem_nil _ hq).elim
      · intro m1 a1 b1 he
        simp only [Option.some.injEq, Prod.mk.injEq] at he
        exact he.1 ▸ le_refl _
  | cons q qs ih =>
    intro st _
    obtain ⟨mu, au, bu, hupd, hdu, hle0, horig⟩ := bestPairUpd_spec dist st p1 q
    obtain ⟨m, a, b, heq, horigin, hmin, hle⟩ :=
      ih (bestPairUpd dist st p1 q) (Or.inr (by rw [hupd]; rfl))
    refine ⟨m, a, b, heq, ?_, ?_, ?_⟩
    · rcases horigin with h1 | h1
      · rw [hupd] at h1
        rcases horig with h2 | h2
        · left; rw [h1, h2]
        · right
          obtain ⟨rfl, rfl, rfl⟩ := h2
          simp only [Option.some.injEq, Prod.mk.injEq] at h1
          obtain ⟨rfl, rfl, rfl⟩ := h1
          exact ⟨rfl, List.mem_cons_self _ _, rfl⟩
      · obtain ⟨rfl, hb, rfl⟩ := h1
        exact Or.inr ⟨rfl, List.mem_cons_of_mem _ hb, rfl⟩
    · intro q2 hq2
      rcases List.mem_cons.mp hq2 with rfl | hq2'
      · exact le_trans (hle mu au bu hupd) hdu
      · exact hmin q2 hq2'
    · intro m0 a0 b0 hst
      exact le_trans (hle mu au bu hupd) (hle0 m0 a0 b0 hst)

lemma outerLoop_spec (dist : Pt → Pt → ℚ) (pts2 : List Pt) (hpts2 : pts2 ≠ []) :
    ∀ (pts1 : List Pt) (st : Option (ℚ × Pt × Pt)), pts1 ≠ [] ∨ st.isSome = true →
      ∃ m a b, outerLoop dist pts2 st pts1 = some (m, a, b) ∧
        (some (m, a, b) = st ∨ (a ∈ pts1 ∧ b ∈ pts2 ∧ m = dist a b)) ∧
        (∀ q1 ∈ pts1, ∀ q2 ∈ pts2, m ≤ dist q1 q2) ∧
        (∀ m0 a0 b0, st = some (m0, a0, b0) → m ≤ m0) := by
  intro pts1
  induction pts1 with
  | nil =>
    intro st h
    rcases h with h | h
    · exact absurd rfl h
    · obtain ⟨t, ht⟩ := Option.isSome_iff_exists.mp h
      obtain ⟨m0, a0, b0⟩ := t
      subst ht
      refine ⟨m0, a0, b0, rfl, Or.inl rfl, ?_, ?_⟩
      · intro q1 hq
        exact (List.not_mem_nil _ hq).elim
      · intro m1 a1 b1 he
        simp only [Option.some.injEq, Prod.mk.injEq] at he
        exact he.1 ▸ le_refl _
  | cons p1 ps ih =>
    intro st _
    obtain ⟨mi, ai, bi, hin, hinorig, hinmin, hinle⟩ :=
      innerLoop_spec dist p1 pts2 st (Or.inl hpts2)
    obtain ⟨m, a, b, heq, horigin, hmin, hle⟩ :=
      ih (innerLoop dist p1 st pts2) (Or.inr (by rw [hin]; rfl))
    refine ⟨m, a, b, heq, ?_, ?_, ?_⟩
    · rcases horigin with h1 | h1
      · rw [hin] at h1
        simp only [Option.some.injEq, Prod.mk.injEq] at h1
        obtain ⟨rfl, rfl, rfl⟩ := h1
        rcases hinorig with h2 | h2
        · left; exact h2
        · right
          obtain ⟨rfl, hb, rfl⟩ := h2
          exact ⟨List.mem_cons_self _ _, hb, rfl⟩
      · obtain ⟨ha, hb, rfl⟩ := h1
        exact Or.inr ⟨List.mem_cons_of_mem _ ha, hb, rfl⟩
    · intro q1 hq1 q2 hq2
      rcases List.mem_cons.mp hq1 with rfl | hq1'
      · exact le_trans (hle mi ai bi hin) (hinmin q2 hq2)
      · exact hmin q1 hq1' q2 hq2
    · intro m0 a0 b0 hst
      exact le_trans (hle mi ai bi hin) (hinle m0 a0 b0 hst)

lemma bestPair_spec (dist : Pt → Pt → ℚ) (pts1 pts2 : List Pt)
    (h1 : pts1 ≠ []) (h2 : pts2 ≠ []) :
    ∃ m a b, bestPair dist pts1 pts2 = some (m, a, b) ∧ a ∈ pts1 ∧ b ∈ pts2 ∧
      m = dist a b ∧ ∀ q1 ∈ pts1, ∀ q2 ∈ pts2, m ≤ dist q1 q2 := by
  obtain ⟨m, a, b, heq, horigin, hmin, -⟩ := outerLoop_spec dist pts2 h2 pts1 none (Or.inl h1)
  rcases horigin with h | h
  · cases h
  · exact ⟨m, a, b, heq, h.1, h.2.1, h.2.2, hmin⟩

/-- Validity of a coordinate pair as the claim words it (in range and not
both exactly zero) — stated for comparison only: the embedded source applies
no such check anywhere in the intersection computation. -/
def spec_valid_coord (p : Pt) : Bool :=
  decide (-90 ≤ p.1 ∧ p.1 ≤ 90 ∧ -180 ≤ p.2 ∧ p.2 ≤ 180) && !(decide (p.1 = 0 ∧ p.2 = 0))

/-- C4 amended: whenever the zone-aware intersection builder emits a point,
that point is the arithmetic mean of a pair of points drawn from the two
places' full extracted (zone-filtered) coordinate lists — with no validity
or sentinel exclusion — whose distance is minimal among all pairs and below
the threshold; the `incrocio` branch then emits it flagged
`calculated_intersection`. -/
theorem C4_theorem :
    (∀ (dist : Pt → Pt → ℚ) (pd1 pd2 : PlaceData) (threshold : ℚ) (zb : Option BBox) (ip : Pt),
        find_intersection_point dist pd1 pd2 threshold zb = some (some ip) →
        ∃ pts1 pts2 p1 p2,
          extract_all_coordinates pd1 zb = some pts1 ∧
          extract_all_coordinates pd2 zb = some pts2 ∧
          p1 ∈ pts1 ∧ p2 ∈ pts2 ∧
          dist p1 p2 < threshold ∧
          ip = ((p1.1 + p2.1) / 2, (p1.2 + p2.2) / 2) ∧
          inOptBBox zb ip = true ∧
          (∀ q1 ∈ pts1, ∀ q2 ∈ pts2, dist p1 p2 ≤ dist q1 q2)) ∧
    (∀ (dist : Pt → Pt → ℚ) (pd1 pd2 : PlaceData) (zb : Option BBox) (ip : Pt),
        find_intersection_point dist pd1 pd2 100 zb = some (some ip) →
        incrocio_specials dist pd1 pd2 zb =
          some (some [⟨"Point", [ip.1, ip.2], true, zb.isSome⟩])) := by
  constructor
  · intro dist pd1 pd2 threshold zb ip h
    rcases he1 : extract_all_coordinates pd1 zb with _ | pts1
    · rw [find_intersection_point, he1] at h
      cases h
    rcases he2 : extract_all_coordinates pd2 zb with _ | pts2
    · rw [find_intersection_point, he1, he2] at h
      cases h
    rw [find_intersection_point, he1, he2] at h
    simp only [Option.bind_eq_bind, Option.some_bind] at h
    by_cases hne : (pts1.isEmpty || pts2.isEmpty) = true
    · rw [if_pos hne] at h
      cases h
    rw [if_neg hne] at h
    have h1 : pts1 ≠ [] := by
      intro hx
      subst hx
      simp at hne
    have h2 : pts2 ≠ [] := by
      intro hx
      subst hx
      simp at hne
    obtain ⟨m, a, b, hbp, hma, hmb, hmd, hmin⟩ := bestPair_spec dist pts1 pts2 h1 h2
    rw [hbp] at h
    dsimp only [pure] at h
    by_cases ht : m < threshold
    · rw [if_pos ht] at h
      by_cases hz : inOptBBox zb ((a.1 + b.1) / 2, (a.2 + b.2) / 2) = true
      · rw [if_pos hz] at h
        simp only [Option.some.injEq] at h
        subst h
        exact ⟨pts1, pts2, a, b, rfl, rfl, hma, hmb, hmd ▸ ht, rfl, hz,
          fun q1 hq1 q2 hq2 => hmd ▸ hmin q1 hq1 q2 hq2⟩
      · rw [if_neg hz] at h
        cases h
    · rw [if_neg ht] at h
      cases h
  · intro dist pd1 pd2 zb ip h
    rw [incrocio_specials, h]

/-- The single-vertex line string at the origin used by the C4
counterexample. -/
def zeroPairData : PlaceData := ⟨[Geom.lineString [[0, 0]]], []⟩

/-- C4 counterexample: both places consist solely of the sentinel point
`(0, 0)`, which the claim declares invalid and excluded from the search;
yet the builder pairs it with itself and emits its midpoint as a flagged
calculated intersection.  (The distance oracle is the constant `0`: the
float haversine of two equal points is exactly `0.0`, since both delta
terms are `sin(0.0) = 0.0`.) -/
theorem C4_counterexample :
    spec_valid_coord (0, 0) = false ∧
    find_intersection_point (fun _ _ => 0) zeroPairData zeroPairData 100 none =
      some (some ((0 + 0) / 2, (0 + 0) / 2)) ∧
    ((0 + 0 : ℚ) / 2, (0 + 0 : ℚ) / 2) = ((0 : ℚ), (0 : ℚ)) ∧
    incrocio_specials (fun _ _ => 0) zeroPairData zeroPairData none =
      some (some [⟨"Point", [(0 + 0) / 2, (0 + 0) / 2], true, false⟩]) :=
  ⟨by decide, rfl, by simp, rfl⟩

/-- C4 witness: the amended theorem applied to two one-point places at
distance 5 with threshold 100. -/
theorem C4_witness :
    ∃ pts1 pts2 p1 p2,
      extract_all_coordinates ⟨[Geom.lineString [[1, 2]]], []⟩ none = some pts1 ∧
      extract_all_coordinates ⟨[Geom.lineString [[3, 4]]], []⟩ none = some pts2 ∧
      p1 ∈ pts1 ∧ p2 ∈ pts2 ∧
      ((fun (_ _ : Pt) => (5 : ℚ)) p1 p2) < 100 ∧
      (((1 + 3 : ℚ) / 2, (2 + 4 : ℚ) / 2) : Pt) = ((p1.1 + p2.1) / 2, (p1.2 + p2.2) / 2) ∧
      inOptBBox none (((1 + 3 : ℚ) / 2, (2 + 4 : ℚ) / 2)) = true ∧
      (∀ q1 ∈ pts1, ∀ q2 ∈ pts2, (fun (_ _ : Pt) => (5 : ℚ)) p1 q2 ≥ 5) := by
  obtain ⟨pts1, pts2, p1, p2, he1, he2, hm1, hm2, hlt, hmid, hz, -⟩ :=
    C4_theorem.1 (fun _ _ => 5) ⟨[Geom.lineString [[1, 2]]], []⟩ ⟨[Geom.lineString [[3, 4]]], []⟩
      100 none ((1 + 3) / 2, (2 + 4) / 2) rfl
  exact ⟨pts1, pts2, p1, p2, he1, he2, hm1, hm2, hlt, hmid, hz,
    fun q1 _ q2 _ => le_refl 5⟩

/-! ## Claim C6 — first element and uniqueness of the variant list -/

/-- No two entries of the list are equal after lower-casing (which implies
no two case-sensitively identical entries either). -/
def distinctCILower : List String → Bool
  | [] => true
  | x :: xs => !(xs.any (fun y => lowerS y == lowerS x)) && distinctCILower xs

lemma scLoop1_extends (bl op : String) :
    ∀ (cases' : List (String × SCVal)) (acc r : List String),
      scLoop1 bl op cases' acc = some r → ∃ s, r = acc ++ s := by
  intro cases'
  induction cases' with
  | nil =>
    intro acc r h
    simp only [scLoop1, Option.some.injEq] at h
    exact ⟨[], by rw [← h, List.append_nil]⟩
  | cons pr rest ih =>
    intro acc r h
    obtain ⟨pat, repl⟩ := pr
    simp only [scLoop1] at h
    split at h
    · split at h
      · cases h
      · obtain ⟨s, hs⟩ := ih acc r h
        exact ⟨s, hs⟩
      · obtain ⟨s, hs⟩ := ih _ r h
        exact ⟨_, by rw [hs, List.append_assoc]⟩
    · obtain ⟨s, hs⟩ := ih acc r h
      exact ⟨s, hs⟩

lemma dedupGo_not_seen :
    ∀ (l seen : List String) (x : String), x ∈ dedupGo seen l →
      seen.contains (lowerS x) = false := by
  intro l
  induction l with
  | nil => intro seen x h; exact absurd h (List.not_mem_nil x)
  | cons v vs ih =>
    intro seen x h
    simp only [dedupGo] at h
    split at h
    · rcases List.mem_cons.mp h with rfl | h'
      · rename_i hcond
        rw [Bool.and_eq_true] at hcond
        simpa using hcond.2
      · have := ih (lowerS (stripS v) :: seen) x h'
        simp only [List.contains_cons, Bool.or_eq_false_iff] at this
        exact this.2
    · exact ih seen x h

lemma dedupGo_distinct :
    ∀ (l seen : List String), distinctCILower (dedupGo seen l) = true := by
  intro l
  induction l with
  | nil => intro seen; rfl
  | cons v vs ih =>
    intro seen
    simp only [dedupGo]
    split
    · simp only [distinctCILower, Bool.and_eq_true]
      refine ⟨?_, ih _⟩
      rw [Bool.not_eq_true', List.any_eq_false]
      intro y hy
      have := dedupGo_not_seen vs (lowerS (stripS v) :: seen) y hy
      simp only [List.contains_cons, Bool.or_eq_false_iff] at this
      simpa using this.1
    · exact ih seen

lemma dedupGo_head (v : String) (l : List String) (h : ¬ stripS v = "") :
    (dedupGo [] (v :: l)).head? = some (stripS v) := by
  simp only [dedupGo]
  rw [if_pos]
  · rfl
  · simp [h]

lemma gvFinish_head (name : String) (city : CityConfig) (base op : String)
    (h : ¬ stripS name = "") :
    gvFinish name city base op = [] ∨
      (gvFinish name city base op).head? = some (stripS name) := by
  unfold gvFinish
  rcases hsc : scLoop1 (lowerS base) op city.special_cases
      ([name] ++ (if base ≠ name then [base] else [])) with _ | vs1
  · exact Or.inl rfl
  · right
    obtain ⟨s, hs⟩ := scLoop1_extends (lowerS base) op city.special_cases _ vs1 hsc
    rw [hs]
    simp only [List.cons_append, List.append_assoc]
    exact dedupGo_head name _ h

lemma gvFinish_distinct (name : String) (city : CityConfig) (base op : String) :
    distinctCILower (gvFinish name city base op) = true := by
  unfold gvFinish
  rcases scLoop1 (lowerS base) op city.special_cases
      ([name] ++ (if base ≠ name then [base] else [])) with _ | vs1
  · rfl
  · exact dedupGo_distinct _ []

/-- C6 amended: unless a special-case entry with an empty replacement list
aborts the generation (empty result), the first element of the variant list
is the *stripped* input name — the unstripped name itself when it carries no
surrounding whitespace — and the list never contains two entries that agree
even case-insensitively (hence never two identical case-sensitive
entries). -/
theorem C6_theorem :
    ∀ (name : String) (city : CityConfig),
      (stripS name = "" ∨ generate_variants name city = [] ∨
        (generate_variants name city).head? = some (stripS name)) ∧
      distinctCILower (generate_variants name city) = true := by
  intro name city
  constructor
  · by_cases hs : stripS name = ""
    · exact Or.inl hs
    · right
      unfold generate_variants
      rcases variantPrefixes.find? (fun p => startsWithS name p) with _ | p
      · exact gvFinish_head name city name "" hs
      · exact gvFinish_head name city _ p hs
  · unfold generate_variants
    rcases variantPrefixes.find? (fun p => startsWithS name p) with _ | p
    · exact gvFinish_distinct name city name ""
    · exact gvFinish_distinct name city _ p

/-- C6 counterexample: for the input `"Via Roma "` (trailing space) the
returned list does not contain the name itself at all — its first element
is the stripped form `"Via Roma"` — so the list's first element is not the
input name. -/
theorem C6_counterexample :
    (generate_variants "Via Roma " romeConfig).head? = some "Via Roma" ∧
    (generate_variants "Via Roma " romeConfig).contains "Via Roma " = false :=
  ⟨by decide, by decide⟩

/-! ## Claim C2 — tract parsing and the endpoint separator

Support lemmas: literal consumption, whitespace runs, stripped strings, and
the exact position at which the lazy scans succeed. -/

lemma dropPfxL_self_append : ∀ (l r : List Char), dropPfxL l (l ++ r) = some r := by
  intro l
  induction l with
  | nil => intro r; rfl
  | cons c cs ih => intro r; simp [dropPfxL, ih]

lemma stripLitCI_self_append : ∀ (l r : List Char), stripLitCI l (l ++ r) = some r := by
  intro l
  induction l with
  | nil => intro r; rfl
  | cons c cs ih => intro r; simp [stripLitCI, ih]

lemma wsCountL_cons_not (c : Char) (l : List Char) (h : isPyWs c = false) :
    wsCountL (c :: l) = 0 := by
  simp [wsCountL, List.takeWhile, h]

lemma wsCountL_cons_ws (c : Char) (l : List Char) (h : isPyWs c = true) :
    wsCountL (c :: l) = 1 + wsCountL l := by
  simp [wsCountL, List.takeWhile, h, Nat.add_comm]

lemma dropWhile_length_le (p : Char → Bool) (l : List Char) :
    (l.dropWhile p).length ≤ l.length := by
  conv_rhs => rw [← List.takeWhile_append_dropWhile p l]
  rw [List.length_append]
  omega

lemma head_not_ws_of_stripped (c : Char) (t : List Char) (h : stripL (c :: t) = c :: t) :
    isPyWs c = false := by
  cases hws : isPyWs c with
  | false => rfl
  | true =>
    exfalso
    have hlen : (stripL (c :: t)).length ≤ t.length := by
      simp only [stripL, List.dropWhile, hws]
      calc ((List.dropWhile isPyWs t).reverse.dropWhile isPyWs).reverse.length
          = ((List.dropWhile isPyWs t).reverse.dropWhile isPyWs).length := by
            rw [List.length_reverse]
        _ ≤ (List.dropWhile isPyWs t).reverse.length := dropWhile_length_le _ _
        _ = (List.dropWhile isPyWs t).length := by rw [List.length_reverse]
        _ ≤ t.length := dropWhile_length_le _ _
    rw [h] at hlen
    simp only [List.length_cons] at hlen
    omega

lemma dropWhile_eq_self_of_length (p : Char → Bool) (l : List Char)
    (h : (l.dropWhile p).length = l.length) : l.dropWhile p = l := by
  have ht := List.takeWhile_append_dropWhile p l
  have hlen : (l.takeWhile p).length + (l.dropWhile p).length = l.length := by
    rw [← List.length_append, ht]
  have h0 : (l.takeWhile p).length = 0 := by omega
  have htn : l.takeWhile p = [] := List.length_eq_zero.mp h0
  calc l.dropWhile p = [] ++ l.dropWhile p := rfl
    _ = l.takeWhile p ++ l.dropWhile p := by rw [htn]
    _ = l := ht

lemma head_false_of_dropWhile_self (p : Char → Bool) (c : Char) (t : List Char)
    (h : (c :: t).dropWhile p = c :: t) : p c = false := by
  cases hpc : p c with
  | false => rfl
  | true =>
    exfalso
    rw [List.dropWhile_cons, if_pos hpc] at h
    have hle := dropWhile_length_le p t
    rw [h] at hle
    simp only [List.length_cons] at hle
    omega

lemma last_not_ws_of_stripped (l : List Char) (h : stripL l = l) :
    ∀ c, l.getLast? = some c → isPyWs c = false := by
  intro c hc
  have hlen : (stripL l).length = l.length := by rw [h]
  have hu : (l.dropWhile isPyWs).length = l.length := by
    have h1 : (stripL l).length ≤ (l.dropWhile isPyWs).length := by
      simp only [stripL, List.length_reverse]
      calc ((l.dropWhile isPyWs).reverse.dropWhile isPyWs).length
          ≤ (l.dropWhile isPyWs).reverse.length := dropWhile_length_le _ _
        _ = (l.dropWhile isPyWs).length := List.length_reverse _
    have h2 : (l.dropWhile isPyWs).length ≤ l.length := dropWhile_length_le _ _
    omega
  have hu' : l.dropWhile isPyWs = l := dropWhile_eq_self_of_length _ _ hu
  have hrlen : (l.reverse.dropWhile isPyWs).length = l.reverse.length := by
    have : stripL l = (l.reverse.dropWhile isPyWs).reverse := by
      simp only [stripL, hu']
    rw [this] at hlen
    simpa using hlen
  have hr : l.reverse.dropWhile isPyWs = l.reverse := dropWhile_eq_self_of_length _ _ hrlen
  have hhead : l.reverse.head? = some c := by rw [List.head?_reverse]; exact hc
  obtain ⟨t, ht⟩ : ∃ t, l.reverse = c :: t := by
    cases hrv : l.reverse with
    | nil => rw [hrv] at hhead; cases hhead
    | cons d t =>
      rw [hrv] at hhead
      simp only [List.head?_cons, Option.some.injEq] at hhead
      exact ⟨t, by rw [hhead]⟩
  rw [ht] at hr
  exact head_false_of_dropWhile_self isPyWs c t hr

lemma stripL_eq_self_of (l : List Char)
    (h1 : ∀ c, l.head? = some c → isPyWs c = false)
    (h2 : ∀ c, l.getLast? = some c → isPyWs c = false) : stripL l = l := by
  have hd : l.dropWhile isPyWs = l := by
    cases l with
    | nil => rfl
    | cons c t =>
      rw [List.dropWhile_cons, if_neg]
      simp [h1 c rfl]
  have hr : l.reverse.dropWhile isPyWs = l.reverse := by
    cases hrev : l.reverse with
    | nil => rfl
    | cons c t =>
      rw [List.dropWhile_cons, if_neg]
      have hc : l.getLast? = some c := by
        rw [← List.head?_reverse, hrev]
        rfl
      simp [h2 c hc]
  simp only [stripL, hd, hr, List.reverse_reverse]

lemma lazyScan_append_aux {β : Type} (test : List Char → Option β) (u : List Char) (b : β) :
    ∀ (A acc : List Char), A ≠ [] → A.all isDotChar = true →
      (∀ j, 0 < j → j < A.length → test (A.drop j ++ u) = none) →
      test u = some b →
      lazyScan test acc (A ++ u) = some (acc.reverse ++ A, b) := by
  intro A
  induction A with
  | nil => intro acc h; exact absurd rfl h
  | cons c cs ih =>
    intro acc _ hdot hfail hsucc
    rw [List.all_cons, Bool.and_eq_true] at hdot
    cases cs with
    | nil =>
      simp [lazyScan, hdot.1, hsucc]
    | cons d ds =>
      have h1 : test (d :: (ds ++ u)) = none := by
        have h := hfail 1 (by omega) (by simp only [List.length_cons]; omega)
        simpa using h
      have hrec := ih (c :: acc) (by simp) hdot.2
        (fun j hj0 hjl => by
          simp only [List.length_cons] at hjl
          have h := hfail (j + 1) (by omega) (by simp only [List.length_cons]; omega)
          simpa using h) hsucc
      calc lazyScan test acc ((c :: d :: ds) ++ u)
          = lazyScan test (c :: acc) ((d :: ds) ++ u) := by
            simp only [List.cons_append, List.append_eq, lazyScan, hdot.1, if_true, h1]
        _ = some ((c :: acc).reverse ++ (d :: ds), b) := hrec
        _ = some (acc.reverse ++ (c :: d :: ds), b) := by
            simp [List.reverse_cons, List.append_assoc]

lemma lazyScan_exact {β : Type} (test : List Char → Option β) (A u : List Char) (b : β)
    (hne : A ≠ []) (hdot : A.all isDotChar = true)
    (hfail : ∀ j, 0 < j → j < A.length → test (A.drop j ++ u) = none)
    (hsucc : test u = some b) :
    lazyScan test [] (A ++ u) = some (A, b) := by
  have := lazyScan_append_aux test u b A [] hne hdot hfail hsucc
  simpa using this

lemma drop_append_of_le' :
    ∀ (l : List Char) (j : Nat) (r : List Char), j ≤ l.length →
      (l ++ r).drop j = l.drop j ++ r := by
  intro l
  induction l with
  | nil =>
    intro j r h
    simp only [List.length_nil, Nat.le_zero] at h
    subst h
    rfl
  | cons c t ih =>
    intro j r h
    cases j with
    | zero => rfl
    | succ j' =>
      simp only [List.cons_append, List.drop_succ_cons]
      exact ih j' r (by simpa using h)

lemma rangeAll_spec (n : Nat) (f : Nat → Bool) (h : (List.range n).all f = true) :
    ∀ j, j < n → f j = true := by
  intro j hj
  exact List.all_eq_true.mp h j (List.mem_range.mpr hj)

lemma wsCountL_tratto (X : List Char) :
    wsCountL (" tratto compreso tra ".data ++ X) = 1 := rfl

lemma drop1_tratto_a (X : List Char) :
    (" tratto compreso tra ".data ++ X).drop 1 = "tratto compreso tra".data ++ (' ' :: X) := rfl

lemma drop1_tratto_b (X : List Char) :
    (" tratto compreso tra ".data ++ X).drop 1 = "tratto compreso tra ".data ++ X := rfl

lemma wsPlusRest_space (c0 : Char) (ct : List Char)
    (hch : isPyWs c0 = false) (hdot : (c0 :: ct).all isDotChar = true) :
    wsPlusRest (' ' :: c0 :: ct) = some (c0 :: ct) := by
  have hm : wsCountL (' ' :: c0 :: ct) = 1 := by
    rw [wsCountL_cons_ws _ _ (by decide), wsCountL_cons_not _ _ hch]
  simp only [wsPlusRest, hm]
  rw [if_neg (by decide), if_pos (by simp [List.length_cons])]
  simp [hdot]

lemma wsEwsTail_sep (c0 : Char) (ct : List Char)
    (hch : isPyWs c0 = false) (hdot : (c0 :: ct).all isDotChar = true) :
    wsEwsTail (" e ".data ++ (c0 :: ct)) = some (c0 :: ct) := by
  show wsPlusRest (' ' :: c0 :: ct) = some (c0 :: ct)
  exact wsPlusRest_space c0 ct hch hdot

lemma tractTailCI_step (u v : List Char) (hk : wsCountL u = 1)
    (hs : stripLitCI "tratto compreso tra".data (u.drop 1) = some v)
    (hm : wsCountL v = 1) :
    tractTailCI u = lazyScan wsEwsTail [] (v.drop 1) := by
  simp only [tractTailCI, hk, hs, hm]
  simp

lemma tractTailCI_eval (x0 : Char) (xt : List Char) (hx : isPyWs x0 = false) :
    tractTailCI (" tratto compreso tra ".data ++ (x0 :: xt)) =
      lazyScan wsEwsTail [] (x0 :: xt) := by
  have hm : wsCountL (' ' :: x0 :: xt) = 1 := by
    rw [wsCountL_cons_ws _ _ (by decide), wsCountL_cons_not _ _ hx]
  exact tractTailCI_step _ (' ' :: x0 :: xt) (wsCountL_tratto _)
    (by rw [drop1_tratto_a]; exact stripLitCI_self_append _ _) hm

lemma litThenRest_step (lit u v : List Char) (hk : wsCountL u = 1)
    (hd : dropPfxL lit (u.drop 1) = some v)
    (hne : v.isEmpty = false) (hdot : v.all isDotChar = true) :
    litThenRest lit u = some v := by
  simp only [litThenRest, hk, hd]
  simp [hne, hdot]

lemma litThenRest_eval (X : List Char) (hne : X.isEmpty = false) (hdot : X.all isDotChar = true) :
    litThenRest "tratto compreso tra ".data (" tratto compreso tra ".data ++ X) = some X := by
  exact litThenRest_step _ _ _ (wsCountL_tratto _)
    (by rw [drop1_tratto_b]; exact dropPfxL_self_append _ _) hne hdot

lemma mem_setAddAllL :
    ∀ (xs l : List (List Char)) (x : List Char), x ∈ setAddAllL l xs ↔ x ∈ l ∨ x ∈ xs := by
  intro xs
  induction xs with
  | nil => intro l x; simp [setAddAllL]
  | cons y ys ih =>
    intro l x
    have hstep : setAddAllL l (y :: ys) = setAddAllL (setAddL l y) ys := rfl
    rw [hstep, ih]
    constructor
    · rintro (h | h)
      · by_cases hy : y ∈ l
        · simp only [setAddL, if_pos hy] at h
          exact Or.inl h
        · simp only [setAddL, if_neg hy] at h
          rcases List.mem_append.mp h with h' | h'
          · exact Or.inl h'
          · simp only [List.mem_singleton] at h'
            exact Or.inr (h' ▸ List.mem_cons_self y ys)
      · exact Or.inr (List.mem_cons_of_mem y h)
    · rintro (h | h)
      · left
        by_cases hy : y ∈ l
        · simpa [setAddL, hy] using h
        · simp [setAddL, hy, List.mem_append, h]
      · rcases List.mem_cons.mp h with rfl | h'
        · left
          by_cases hy : x ∈ l
          · simp [setAddL, hy]
          · simp [setAddL, hy]
        · exact Or.inr h'

lemma getLast?_append_right (l r : List Char) (h : r ≠ []) :
    (l ++ r).getLast? = r.getLast? := by
  rw [← List.head?_reverse, List.reverse_append, ← List.head?_reverse r]
  cases hr : r.reverse with
  | nil =>
    exfalso
    exact h (by simpa using hr)
  | cons x xs => simp [hr]

lemma ne_nil_of_isEmpty_false {α : Type} (l : List α) (h : l.isEmpty = false) : l ≠ [] := by
  cases l with
  | nil => simp [List.isEmpty] at h
  | cons a t => simp

lemma append_ne_nil_left {α : Type} (l r : List α) (h : l ≠ []) : l ++ r ≠ [] := by
  cases l with
  | nil => exact absurd rfl h
  | cons a t => simp

/-- C2: corrected.  For a raw string of the form `A tratto compreso tra B e C`
(with stripped, nonempty, newline-free groups, the scans matching nowhere
earlier, and no civic sub-pattern interfering), the fetcher's
`extract_elements` does yield exactly the set `{A, B, C}`: its regex splits
the endpoint clause at the first ` e ` only, so an endpoint `C` containing
` e ` stays whole.  But the embedder's `parse_specification` — the raw-string
parser of record — splits the tract tail at EVERY occurrence of the literal
` e ` (`tail.split(' e ')`), so its endpoint list and places are
`(pySplitL " e " (B ++ " e " ++ C)).map stripL`, which subdivides such a `C`
further; the claim's "split only at the first occurrence" holds for the
fetcher but not for the parser. -/
theorem C2_theorem (A B C : List Char)
    (hAne : A.isEmpty = false) (hBne : B.isEmpty = false) (hCne : C.isEmpty = false)
    (hAdot : A.all isDotChar = true) (hBdot : B.all isDotChar = true)
    (hCdot : C.all isDotChar = true)
    (hAs : stripL A = A) (hBs : stripL B = B) (hCs : stripL C = C)
    (hOutT : (List.range A.length).all
      (fun j => j == 0 ||
        (tractTailCI (A.drop j ++
          (" tratto compreso tra ".data ++ (B ++ (" e ".data ++ C))))).isNone) = true)
    (hInn : (List.range B.length).all
      (fun j => j == 0 || (wsEwsTail (B.drop j ++ (" e ".data ++ C))).isNone) = true)
    (hOutE : (List.range A.length).all
      (fun j => j == 0 ||
        (litThenRest "tratto compreso tra ".data (A.drop j ++
          (" tratto compreso tra ".data ++ (B ++ (" e ".data ++ C))))).isNone) = true)
    (hBcp : (civicParenMatch B).isNone = true) (hBcd : (civicDirectMatch B).isNone = true)
    (hCcp : (civicParenMatch C).isNone = true) (hCcd : (civicDirectMatch C).isNone = true)
    (hRcp : (civicParenMatch
      (A ++ (" tratto compreso tra ".data ++ (B ++ (" e ".data ++ C))))).isNone = true) :
    (∀ x, x ∈ extract_elements
        (A ++ (" tratto compreso tra ".data ++ (B ++ (" e ".data ++ C)))) ↔
      (x = A ∨ x = B ∨ x = C)) ∧
    parse_specification (A ++ (" tratto compreso tra ".data ++ (B ++ (" e ".data ++ C)))) =
      ⟨"tratto".data, A, none,
        (pySplitL " e ".data (B ++ (" e ".data ++ C))).map stripL, none,
        A :: (pySplitL " e ".data (B ++ (" e ".data ++ C))).map stripL⟩ := by
  have hAnil : A ≠ [] := ne_nil_of_isEmpty_false A hAne
  have hBnil : B ≠ [] := ne_nil_of_isEmpty_false B hBne
  have hCnil : C ≠ [] := ne_nil_of_isEmpty_false C hCne
  obtain ⟨a0, at0, hAe⟩ := List.exists_cons_of_ne_nil hAnil
  obtain ⟨b0, bt, hBe⟩ := List.exists_cons_of_ne_nil hBnil
  obtain ⟨c0, ct, hCe⟩ := List.exists_cons_of_ne_nil hCnil
  have hah : isPyWs a0 = false := head_not_ws_of_stripped a0 at0 (hAe ▸ hAs)
  have hbh : isPyWs b0 = false := head_not_ws_of_stripped b0 bt (hBe ▸ hBs)
  have hch : isPyWs c0 = false := head_not_ws_of_stripped c0 ct (hCe ▸ hCs)
  have hInnSucc : wsEwsTail (" e ".data ++ C) = some C := by
    rw [hCe]
    exact wsEwsTail_sep c0 ct hch (hCe ▸ hCdot)
  have hInnFail : ∀ j, 0 < j → j < B.length →
      wsEwsTail (B.drop j ++ (" e ".data ++ C)) = none := by
    intro j hj0 hjl
    have h : (j == 0 || (wsEwsTail (B.drop j ++ (" e ".data ++ C))).isNone) = true :=
      rangeAll_spec B.length _ hInn j hjl
    simp only [Bool.or_eq_true, beq_iff_eq] at h
    rcases h with h | h
    · exact absurd h (Nat.pos_iff_ne_zero.mp hj0)
    · exact Option.isNone_iff_eq_none.mp h
  have hTailSucc : tractTailCI
      (" tratto compreso tra ".data ++ (B ++ (" e ".data ++ C))) = some (B, C) := by
    have hinner : lazyScan wsEwsTail [] (B ++ (" e ".data ++ C)) = some (B, C) :=
      lazyScan_exact wsEwsTail B (" e ".data ++ C) C hBnil hBdot hInnFail hInnSucc
    have hshape : B ++ (" e ".data ++ C) = b0 :: (bt ++ (" e ".data ++ C)) := by
      rw [hBe]
      exact List.cons_append b0 bt _
    rw [hshape, tractTailCI_eval b0 (bt ++ (" e ".data ++ C)) hbh, ← hshape]
    exact hinner
  have hOutTFail : ∀ j, 0 < j → j < A.length →
      tractTailCI (A.drop j ++
        (" tratto compreso tra ".data ++ (B ++ (" e ".data ++ C)))) = none := by
    intro j hj0 hjl
    have h : (j == 0 || (tractTailCI (A.drop j ++
        (" tratto compreso tra ".data ++ (B ++ (" e ".data ++ C))))).isNone) = true :=
      rangeAll_spec A.length _ hOutT j hjl
    simp only [Bool.or_eq_true, beq_iff_eq] at h
    rcases h with h | h
    · exact absurd h (Nat.pos_iff_ne_zero.mp hj0)
    · exact Option.isNone_iff_eq_none.mp h
  have hScanT : lazyScan tractTailCI []
      (A ++ (" tratto compreso tra ".data ++ (B ++ (" e ".data ++ C)))) =
      some (A, (B, C)) :=
    lazyScan_exact tractTailCI A
      (" tratto compreso tra ".data ++ (B ++ (" e ".data ++ C))) (B, C)
      hAnil hAdot hOutTFail hTailSucc
  have hT : tractMatchCI
      (A ++ (" tratto compreso tra ".data ++ (B ++ (" e ".data ++ C)))) =
      some (A, B, C) := by
    simp only [tractMatchCI, hScanT]
  have hBend : civicEndpointElems B = [B] := by
    simp only [civicEndpointElems, Option.isNone_iff_eq_none.mp hBcp,
      Option.isNone_iff_eq_none.mp hBcd]
  have hCend : civicEndpointElems C = [C] := by
    simp only [civicEndpointElems, Option.isNone_iff_eq_none.mp hCcp,
      Option.isNone_iff_eq_none.mp hCcd]
  have hEx : extract_elements
      (A ++ (" tratto compreso tra ".data ++ (B ++ (" e ".data ++ C)))) =
      setAddAllL [] [A, B, C] := by
    simp only [extract_elements, hT, hAs, hBs, hCs, hBend, hCend]
    rfl
  have hhead : (A ++
      (" tratto compreso tra ".data ++ (B ++ (" e ".data ++ C)))).head? = some a0 := by
    rw [hAe, List.cons_append]
    rfl
  have hgl : (A ++
      (" tratto compreso tra ".data ++ (B ++ (" e ".data ++ C)))).getLast? =
      C.getLast? := by
    rw [getLast?_append_right A
        (" tratto compreso tra ".data ++ (B ++ (" e ".data ++ C)))
        (append_ne_nil_left " tratto compreso tra ".data _ (by decide)),
      getLast?_append_right " tratto compreso tra ".data (B ++ (" e ".data ++ C))
        (append_ne_nil_left B _ hBnil),
      getLast?_append_right B (" e ".data ++ C)
        (append_ne_nil_left " e ".data C (by decide)),
      getLast?_append_right " e ".data C hCnil]
  have hstrip : stripL
      (A ++ (" tratto compreso tra ".data ++ (B ++ (" e ".data ++ C)))) =
      A ++ (" tratto compreso tra ".data ++ (B ++ (" e ".data ++ C))) := by
    apply stripL_eq_self_of
    · intro c hc
      rw [hhead] at hc
      simp only [Option.some.injEq] at hc
      exact hc ▸ hah
    · intro c hc
      rw [hgl] at hc
      exact last_not_ws_of_stripped C hCs c hc
  have hXdot : (B ++ (" e ".data ++ C)).all isDotChar = true := by
    simp [List.all_append, hBdot, hCdot]
    decide
  have hXne : (B ++ (" e ".data ++ C)).isEmpty = false := by
    rw [hBe, List.cons_append]
    rfl
  have hEmbSucc : litThenRest "tratto compreso tra ".data
      (" tratto compreso tra ".data ++ (B ++ (" e ".data ++ C))) =
      some (B ++ (" e ".data ++ C)) :=
    litThenRest_eval (B ++ (" e ".data ++ C)) hXne hXdot
  have hOutEFail : ∀ j, 0 < j → j < A.length →
      litThenRest "tratto compreso tra ".data (A.drop j ++
        (" tratto compreso tra ".data ++ (B ++ (" e ".data ++ C)))) = none := by
    intro j hj0 hjl
    have h : (j == 0 || (litThenRest "tratto compreso tra ".data (A.drop j ++
        (" tratto compreso tra ".data ++ (B ++ (" e ".data ++ C))))).isNone) = true :=
      rangeAll_spec A.length _ hOutE j hjl
    simp only [Bool.or_eq_true, beq_iff_eq] at h
    rcases h with h | h
    · exact absurd h (Nat.pos_iff_ne_zero.mp hj0)
    · exact Option.isNone_iff_eq_none.mp h
  have hScanE : lazyScan (litThenRest "tratto compreso tra ".data) []
      (A ++ (" tratto compreso tra ".data ++ (B ++ (" e ".data ++ C)))) =
      some (A, B ++ (" e ".data ++ C)) :=
    lazyScan_exact (litThenRest "tratto compreso tra ".data) A
      (" tratto compreso tra ".data ++ (B ++ (" e ".data ++ C)))
      (B ++ (" e ".data ++ C)) hAnil hAdot hOutEFail hEmbSucc
  have hcp : civicParenMatch
      (A ++ (" tratto compreso tra ".data ++ (B ++ (" e ".data ++ C)))) = none :=
    Option.isNone_iff_eq_none.mp hRcp
  refine ⟨?_, ?_⟩
  · intro x
    rw [hEx, mem_setAddAllL]
    simp
  · simp only [parse_specification, hstrip, hcp, hScanE, hAs]

/-- C2 witness: the hypotheses of the amended statement are satisfiable — the
concrete tract specification `Via Tuscolana tratto compreso tra Via Appia
Nuova e Via Cinecittà` discharges them all by evaluation. -/
theorem C2_witness :
    (∀ x, x ∈ extract_elements
        ("Via Tuscolana".data ++ (" tratto compreso tra ".data ++
          ("Via Appia Nuova".data ++ (" e ".data ++ "Via Cinecittà".data)))) ↔
      (x = "Via Tuscolana".data ∨ x = "Via Appia Nuova".data ∨
        x = "Via Cinecittà".data)) ∧
    parse_specification ("Via Tuscolana".data ++ (" tratto compreso tra ".data ++
        ("Via Appia Nuova".data ++ (" e ".data ++ "Via Cinecittà".data)))) =
      ⟨"tratto".data, "Via Tuscolana".data, none,
        (pySplitL " e ".data
          ("Via Appia Nuova".data ++ (" e ".data ++ "Via Cinecittà".data))).map stripL,
        none,
        "Via Tuscolana".data :: (pySplitL " e ".data
          ("Via Appia Nuova".data ++ (" e ".data ++ "Via Cinecittà".data))).map stripL⟩ :=
  C2_theorem "Via Tuscolana".data "Via Appia Nuova".data "Via Cinecittà".data
    (by decide) (by decide) (by decide) (by decide) (by decide) (by decide)
    (by decide) (by decide) (by decide) (by decide) (by decide) (by decide)
    (by decide) (by decide) (by decide) (by decide) (by decide)

/-- C2 counterexample: with endpoint clause `Via Beta e Via Gamma e Via Delta`
the fetcher's `extract_elements` keeps the second endpoint `Via Gamma e Via
Delta` whole (first-` e `-only split), but `parse_specification` splits the
tail at every ` e `, so its places list subdivides that endpoint and never
contains it. -/
theorem C2_counterexample :
    extract_elements "Via Alfa tratto compreso tra Via Beta e Via Gamma e Via Delta".data =
      ["Via Alfa".data, "Via Beta".data, "Via Gamma e Via Delta".data] ∧
    (parse_specification
        "Via Alfa tratto compreso tra Via Beta e Via Gamma e Via Delta".data).places =
      ["Via Alfa".data, "Via Beta".data, "Via Gamma".data, "Via Delta".data] ∧
    ¬ ("Via Gamma e Via Delta".data ∈
      (parse_specification
        "Via Alfa tratto compreso tra Via Beta e Via Gamma e Via Delta".data).places) := by
  decide
